import Mathlib

/-!
Verification of the `scottco` HR-document tools (job-description generator and
job-evaluation pipeline) against their natural-language specification.

The Python sources are shallowly embedded: strings are `List Char`, Python
string methods (`strip`, `find`, slicing, `split`, `title`, `upper`, …) are
modelled char-exactly on ASCII, fallible operations return `Option`/`Except`,
and the stateful HTTP handlers are modelled as pure functions of their inputs
plus explicit state.  External effects (LLM calls, file IO) are parameters:
each pipeline stage's outcome is passed in as an `Except` value, exactly
mirroring the way the handlers consume those outcomes.

Python `Optional[str]` fields that the code only ever tests for truthiness
(where `None` and `""` behave identically) are modelled as plain strings with
`[]` standing for both; `Optional[bool]` tested with `is not None` is
`Option Bool`.
-/

namespace Scottco

/-- Strings are modelled as lists of characters. -/
abbrev Str := List Char

/-! ## Python string primitives -/

/-- The characters Python's default `str.strip()` / `str.split()` treat as
whitespace (ASCII fragment): space, tab, newline, carriage return, vertical
tab, form feed. -/
def pyWsChar (c : Char) : Bool :=
  c = ' ' || c = '\t' || c = '\n' || c = '\r' || c = '\x0b' || c = '\x0c'

/-- Python `str.strip()`: remove leading and trailing whitespace. -/
def pyStrip (s : Str) : Str :=
  ((s.dropWhile pyWsChar).reverse.dropWhile pyWsChar).reverse

/-- Python `str.upper()` (ASCII). -/
def pyUpper (s : Str) : Str := s.map Char.toUpper

/-- Python `str.lower()` (ASCII). -/
def pyLower (s : Str) : Str := s.map Char.toLower

/-- `startsWithL pre s` : does `s` start with `pre`?  (Python `str.startswith`.) -/
def startsWithL : Str → Str → Bool
  | [], _ => true
  | _ :: _, [] => false
  | p :: ps, c :: cs => p = c && startsWithL ps cs

/-- `endsWithL suf s` : does `s` end with `suf`?  (Python `str.endswith`.) -/
def endsWithL (suf s : Str) : Bool := startsWithL suf.reverse s.reverse

/-- Python `pat in s` (substring containment). -/
def isSubstrL (pat : Str) : Str → Bool
  | [] => startsWithL pat []
  | c :: cs => startsWithL pat (c :: cs) || isSubstrL pat cs

/-- Index of the first occurrence of `pat` in `s`, if any. -/
def firstOccur (pat : Str) : Str → Option Nat
  | [] => if startsWithL pat [] then some 0 else none
  | c :: cs =>
    if startsWithL pat (c :: cs) then some 0
    else (firstOccur pat cs).map (· + 1)

/-- Python `s.find(pat, start)` with an integer `start` (as used by the JSON
extraction code): searches from `max start 0`, returns `-1` when absent.
The call sites only ever pass non-negative starts. -/
def pyFind (s pat : Str) (start : Int) : Int :=
  let st : Nat := start.toNat
  match firstOccur pat (s.drop st) with
  | some k => (st + k : Nat)
  | none => -1

/-- Python slice `s[start:stop]` for step 1, with Python's negative-index and
clamping semantics. -/
def pySlice (s : Str) (start stop : Int) : Str :=
  let n : Int := s.length
  let st : Nat := (if start < 0 then max 0 (n + start) else min start n).toNat
  let sp : Nat := (if stop < 0 then max 0 (n + stop) else min stop n).toNat
  (s.take sp).drop st

/-- Split on `'\n'`, keeping empty pieces (Python `content.split('\n')`). -/
def splitNl : Str → List Str
  | [] => [[]]
  | c :: cs =>
    if c = '\n' then [] :: splitNl cs
    else
      match splitNl cs with
      | h :: t => (c :: h) :: t
      | [] => [[c]]

/-- Python `"\n".join(lines)`. -/
def joinNl : List Str → Str
  | [] => []
  | [l] => l
  | l :: ls => l ++ '\n' :: joinNl ls

/-- Python `str.title()` (ASCII): a letter is upper-cased when not preceded by
a letter, lower-cased otherwise. -/
def pyTitleGo (prevAlpha : Bool) : Str → Str
  | [] => []
  | c :: cs =>
    (if c.isAlpha then (if prevAlpha then c.toLower else c.toUpper) else c)
      :: pyTitleGo c.isAlpha cs

/-- Python `str.title()` (ASCII). -/
def pyTitle (s : Str) : Str := pyTitleGo false s

/-- Python `html.escape(s)` with its default `quote=True`. -/
def pyHtmlEscape (s : Str) : Str :=
  s.flatMap fun c =>
    if c = '&' then "&amp;".toList
    else if c = '<' then "&lt;".toList
    else if c = '>' then "&gt;".toList
    else if c = '"' then "&quot;".toList
    else if c = '\'' then "&#x27;".toList
    else [c]

/-- Last path component (what `pathlib.Path(p).name` returns on POSIX for
the file paths at hand; pathlib additionally normalizes away trailing
slashes, which the document paths fed to these functions never carry). -/
def lastComponent (s : Str) : Str :=
  (s.reverse.takeWhile (· ≠ '/')).reverse

/-- `pathlib.Path(name).suffix` of a path: taking the last component `name`,
if the last `'.'` sits strictly inside `name` (not first, not last char) the
suffix is from that dot on, else `""`.  Mirrors pathlib's
`i = name.rfind('.'); return name[i:] if 0 < i < len(name) - 1 else ''`. -/
def pySuffix (path : Str) : Str :=
  let name := lastComponent path
  let i : Int := pyFind name.reverse ['.'] 0
  if i = -1 then []
  else
    let j : Nat := name.length - 1 - i.toNat
    if 0 < j ∧ j < name.length - 1 then name.drop j else []

/-- Python `str.split()` with no argument: split on whitespace runs,
discarding empty pieces.  `cur` accumulates the current word reversed. -/
def pySplitWsGo (cur : Str) : Str → List Str
  | [] => if cur = [] then [] else [cur.reverse]
  | c :: cs =>
    if pyWsChar c then
      if cur = [] then pySplitWsGo [] cs else cur.reverse :: pySplitWsGo [] cs
    else pySplitWsGo (c :: cur) cs

/-- Python `str.split()` with no argument. -/
def pySplitWs (s : Str) : List Str := pySplitWsGo [] s

/-- Python `"_".join(ws)`. -/
def joinUnd : List Str → Str
  | [] => []
  | [w] => w
  | w :: ws => w ++ '_' :: joinUnd ws

/-- Python `str.zfill(2)` on a string of digits. -/
def zfill2 (s : Str) : Str := List.replicate (2 - s.length) '0' ++ s

/-! ## job-description `app.py`: in-memory organizational config

`current_config` is a process-wide dictionary with exactly the four keys
below; `update_config` overwrites all four from the posted body and
`get_config` returns the dictionary. -/

/-- The shape of the `current_config` dictionary in
`src/job_description/app.py`. -/
structure ConfigState where
  organization_name : Str
  industry : Str
  location : Str
  organization_description : Str
deriving DecidableEq, Repr

/-- Request body of `POST /api/config` (`class ConfigUpdate(BaseModel)`):
`organization_description` is `Optional[str] = ""`. -/
structure ConfigUpdate where
  organization_name : Str
  industry : Str
  location : Str
  organization_description : Option Str
deriving DecidableEq, Repr

/-- Python `x or ""` on an `Optional[str]` (`None` and `""` both give `""`;
on strings `s or ""` returns `s` when `s` is non-empty and `""` when it is
empty, which is the identity). -/
def pyOrEmpty : Option Str → Str
  | none => []
  | some s => s

/-- `POST /api/config` handler body (app.py lines 218-225): overwrite all
four entries of the config dictionary. -/
def update_config (_s : ConfigState) (u : ConfigUpdate) : ConfigState :=
  { organization_name := u.organization_name
    industry := u.industry
    location := u.location
    organization_description := pyOrEmpty u.organization_description }

/-- `GET /api/config` handler (app.py lines 212-215): return the current
config dictionary. -/
def get_config (s : ConfigState) : ConfigState := s

/-! ## Download endpoints (C4)

Both download endpoints validate the `format` path parameter, then glob the
output directory for a filename pattern and 404 when nothing matches.  The
output directory is modelled as the list of filenames it contains. -/

/-- Shell-style glob match as used by `pathlib.Path.glob` on a single
filename: `*` matches any (possibly empty) run of characters, `?` matches
exactly one character; other characters match literally.  The patterns built
by the two endpoints contain a single `*` plus interpolated identifiers;
fnmatch character classes (`[...]`) are not produced by them and are treated
literally here. -/
def globMatch : Str → Str → Bool
  | [], [] => true
  | '*' :: ps, [] => globMatch ps []
  | _ :: _, [] => false
  | [], _ :: _ => false
  | '*' :: ps, c :: cs => globMatch ps (c :: cs) || globMatch ('*' :: ps) cs
  | '?' :: ps, _ :: cs => globMatch ps cs
  | p :: ps, c :: cs => p = c && globMatch ps cs
termination_by p s => (p.length, s.length)

/-- Result of a download endpoint: the served file, or an HTTP error with a
status code and a `detail` message. -/
inductive DownloadResult where
  | file (name : Str)
  | httpError (status : Nat) (detail : Str)
deriving DecidableEq, Repr

/-- `GET /api/download/{job_id}/{format}` of the job-evaluation API
(api.py lines 316-366).  `files` is the content of the output directory. -/
def download_evaluation (files : List Str) (job_id format : Str) : DownloadResult :=
  if ¬ (format = "txt".toList ∨ format = "pdf".toList ∨ format = "docx".toList) then
    .httpError 400 "Invalid format. Must be txt, pdf, or docx".toList
  else
    let pattern := "job_eval_*_".toList ++ job_id ++ '.' :: format
    match files.filter (globMatch pattern) with
    | [] => .httpError 404 ("Evaluation file not found for format: ".toList ++ format)
    | f :: _ => .file f

/-- `GET /api/download/{provider}/{job_id}/{format}` of the job-description
API (app.py lines 306-359). -/
def download_job_description (files : List Str) (provider job_id format : Str) :
    DownloadResult :=
  if ¬ (format = "txt".toList ∨ format = "pdf".toList ∨ format = "docx".toList) then
    .httpError 400 "Invalid format. Must be txt, pdf, or docx".toList
  else
    let pattern := "job_description_*_".toList ++ job_id ++ '_' :: provider ++ '.' :: format
    match files.filter (globMatch pattern) with
    | [] =>
      .httpError 404 ("Job description file not found for format: ".toList ++ format)
    | f :: _ => .file f

/-! ## Upload validation and the job-evaluation endpoints (C5) -/

/-- `validate_file_type` (api.py lines 138-148): `some (status, detail)` when
it raises an `HTTPException`, `none` when the filename passes.  Python's
`if not filename` catches both `None` and `""`. -/
def validate_file_type (filename : Option Str) : Option (Nat × Str) :=
  match filename with
  | none => some (400, "No filename provided".toList)
  | some fn =>
    if fn = [] then some (400, "No filename provided".toList)
    else
      let suffix := pyLower (pySuffix fn)
      if suffix = ".pdf".toList ∨ suffix = ".docx".toList ∨ suffix = ".doc".toList then
        none
      else
        some (400, ("Unsupported file type: ".toList ++ suffix
          ++ ". Only PDF and DOCX allowed.".toList))

/-- The three LLM pipeline stages of the job-evaluation tool. -/
inductive Stage where
  | compare
  | gauge
  | classify
deriving DecidableEq, Repr

/-! ## JSON values and pydantic-style validation (C7, C8)

`json.loads` of an LLM response yields nested dicts/lists/strings/numbers/
booleans/null.  JSON numbers are modelled as integers; the schemas under
study declare no float fields and the fenced responses the validators accept
put integers in the numeric slots.  A parsed JSON *object* is a list of
key/value pairs; as in a Python dict built by `json.loads`, a repeated key
keeps its last value (`jLookup` folds from the left, later pairs win). -/

inductive JValue where
  | null
  | jbool (b : Bool)
  | jnum (n : Int)
  | jstr (s : Str)
  | jarr (elems : List JValue)
  | jobj (fields : List (Str × JValue))

/-- Dictionary lookup with Python `json.loads` duplicate-key semantics
(the last binding of a key wins). -/
def jLookup (fields : List (Str × JValue)) (name : Str) : Option JValue :=
  fields.foldl (fun acc kv => if kv.1 = name then some kv.2 else acc) none

/-! Pydantic v2 lax ("smart") coercions for the field types appearing in the
two schemas, restricted to inputs that `json.loads` can produce:

* `str` fields accept exactly JSON strings (v2 does not stringify numbers);
* `bool` fields accept JSON booleans, the ints 0/1, and the usual
  case-insensitive boolean words;
* `int` fields accept JSON integers and integer-looking strings (optionally
  signed, surrounding whitespace ignored), but not booleans;
* `Optional[str]` additionally accepts `null`;
* `list[str]` / `dict[str, str]` accept arrays/objects of strings. -/

/-- Coerce to `str`. -/
def coerceStr : JValue → Option Str
  | .jstr s => some s
  | _ => none

/-- Coerce to `bool`. -/
def coerceBool : JValue → Option Bool
  | .jbool b => some b
  | .jnum n => if n = 0 then some false else if n = 1 then some true else none
  | .jstr s =>
    let t := pyLower s
    if t = "true".toList ∨ t = "t".toList ∨ t = "yes".toList ∨ t = "y".toList
        ∨ t = "on".toList ∨ t = "1".toList then some true
    else if t = "false".toList ∨ t = "f".toList ∨ t = "no".toList ∨ t = "n".toList
        ∨ t = "off".toList ∨ t = "0".toList then some false
    else none
  | _ => none

/-- Digits of a decimal numeral to a natural number. -/
def digitsToNat : Str → Option Nat
  | [] => none
  | ds =>
    if ds.all Char.isDigit then
      some (ds.foldl (fun acc c => acc * 10 + (c.toNat - '0'.toNat)) 0)
    else none

/-- An integer-looking string (optional sign, at least one digit, surrounding
whitespace ignored) to an integer. -/
def parseIntStr (s : Str) : Option Int :=
  match pyStrip s with
  | '-' :: ds => (digitsToNat ds).map (fun n => -(n : Int))
  | '+' :: ds => (digitsToNat ds).map (fun n => (n : Int))
  | ds => (digitsToNat ds).map (fun n => (n : Int))

/-- Coerce to `int` (booleans are rejected). -/
def coerceInt : JValue → Option Int
  | .jnum n => some n
  | .jstr s => parseIntStr s
  | _ => none

/-- Coerce to `Optional[str]`. -/
def coerceOptStr : JValue → Option (Option Str)
  | .null => some none
  | .jstr s => some (some s)
  | _ => none

/-- Coerce to `list[str]`. -/
def coerceListStr : JValue → Option (List Str)
  | .jarr xs => xs.mapM coerceStr
  | _ => none

/-- Coerce to `dict[str, str]`. -/
def coerceDictStrStr : JValue → Option (List (Str × Str))
  | .jobj kvs => kvs.mapM (fun kv => (coerceStr kv.2).map (fun v => (kv.1, v)))
  | _ => none

/-- A required pydantic field: error when absent or not coercible. -/
def reqField (fs : List (Str × JValue)) (name : Str) (co : JValue → Option α) :
    Except Str α :=
  match jLookup fs name with
  | none => .error ("Field required: ".toList ++ name)
  | some v =>
    match co v with
    | none => .error ("Invalid value for field: ".toList ++ name)
    | some a => .ok a

/-- An optional pydantic field with a default: the default when absent,
error when present but not coercible. -/
def optField (fs : List (Str × JValue)) (name : Str) (co : JValue → Option α)
    (dflt : α) : Except Str α :=
  match jLookup fs name with
  | none => .ok dflt
  | some v =>
    match co v with
    | none => .error ("Invalid value for field: ".toList ++ name)
    | some a => .ok a

/-- The `confidence: int = Field(ge=0, le=100)` field: required, int-coerced,
then bound-checked. -/
def reqConfidence (fs : List (Str × JValue)) : Except Str Int := do
  let n ← reqField fs "confidence".toList coerceInt
  if 0 ≤ n ∧ n ≤ 100 then pure n
  else .error "confidence out of range (0-100)".toList

/-- `RevaluationRecommendation` (gauge.py lines 22-51). -/
structure RevaluationRecommendation where
  should_reevaluate : Bool
  confidence : Int
  current_level : Str
  likely_new_level_range : Str
  rationale : Str
  key_factors : List Str
  categories_affected : List Str
  risk_assessment : Str
deriving DecidableEq, Repr

/-- `ClassificationRecommendation` (classifier.py lines 21-61). -/
structure ClassificationRecommendation where
  position_title : Str
  recommended_level : Str
  confidence : Int
  previous_level : Option Str
  rationale : Str
  category_analysis : List (Str × Str)
  supporting_evidence : List Str
  alternative_levels : List Str
  change_context_used : Bool
  comparable_positions : List Str
deriving DecidableEq, Repr

/-- `RevaluationRecommendation(**result)`: pydantic validation of a parsed
JSON object against the gauge schema. -/
def validateRevaluation (fs : List (Str × JValue)) :
    Except Str RevaluationRecommendation := do
  let sr ← reqField fs "should_reevaluate".toList coerceBool
  let conf ← reqConfidence fs
  let cur ← reqField fs "current_level".toList coerceStr
  let rng ← reqField fs "likely_new_level_range".toList coerceStr
  let rat ← reqField fs "rationale".toList coerceStr
  let kf ← optField fs "key_factors".toList coerceListStr []
  let ca ← optField fs "categories_affected".toList coerceListStr []
  let ra ← reqField fs "risk_assessment".toList coerceStr
  pure ⟨sr, conf, cur, rng, rat, kf, ca, ra⟩

/-- `ClassificationRecommendation(**result)`: pydantic validation of a parsed
JSON object against the classifier schema. -/
def validateClassification (fs : List (Str × JValue)) :
    Except Str ClassificationRecommendation := do
  let pt ← reqField fs "position_title".toList coerceStr
  let rl ← reqField fs "recommended_level".toList coerceStr
  let conf ← reqConfidence fs
  let pl ← optField fs "previous_level".toList coerceOptStr none
  let rat ← reqField fs "rationale".toList coerceStr
  let ca ← optField fs "category_analysis".toList coerceDictStrStr []
  let se ← optField fs "supporting_evidence".toList coerceListStr []
  let al ← optField fs "alternative_levels".toList coerceListStr []
  let ccu ← optField fs "change_context_used".toList coerceBool false
  let cp ← optField fs "comparable_positions".toList coerceListStr []
  pure ⟨pt, rl, conf, pl, rat, ca, se, al, ccu, cp⟩

/-- `true` on `Except.ok`. -/
def exceptIsOk : Except ε α → Bool
  | .ok _ => true
  | .error _ => false

/-! Spec-side acceptance conditions, mirroring the claim's wording: a
required field must be present with a value coercible to its declared type,
a present optional field must be coercible, and the (coerced) bounded
`confidence` must lie in `[0, 100]`.  These are order-independent
conjunctions, settled against the sequential validators above. -/

/-- Required field present and coercible. -/
def fieldOkReq (fs : List (Str × JValue)) (name : Str) (co : JValue → Option α) :
    Bool :=
  ((jLookup fs name).bind co).isSome

/-- Optional field absent, or present and coercible. -/
def fieldOkOpt (fs : List (Str × JValue)) (name : Str) (co : JValue → Option α) :
    Bool :=
  match jLookup fs name with
  | none => true
  | some v => (co v).isSome

/-- The coerced `confidence` exists and lies in `[0, 100]`. -/
def confidenceOk (fs : List (Str × JValue)) : Bool :=
  match (jLookup fs "confidence".toList).bind coerceInt with
  | some n => decide (0 ≤ n ∧ n ≤ 100)
  | none => false

/-- Claim-side acceptance condition for the gauge schema. -/
def revaluationAccepted (fs : List (Str × JValue)) : Bool :=
  fieldOkReq fs "should_reevaluate".toList coerceBool
  && confidenceOk fs
  && fieldOkReq fs "current_level".toList coerceStr
  && fieldOkReq fs "likely_new_level_range".toList coerceStr
  && fieldOkReq fs "rationale".toList coerceStr
  && fieldOkOpt fs "key_factors".toList coerceListStr
  && fieldOkOpt fs "categories_affected".toList coerceListStr
  && fieldOkReq fs "risk_assessment".toList coerceStr

/-- Claim-side acceptance condition for the classifier schema. -/
def classificationAccepted (fs : List (Str × JValue)) : Bool :=
  fieldOkReq fs "position_title".toList coerceStr
  && fieldOkReq fs "recommended_level".toList coerceStr
  && confidenceOk fs
  && fieldOkOpt fs "previous_level".toList coerceOptStr
  && fieldOkReq fs "rationale".toList coerceStr
  && fieldOkOpt fs "category_analysis".toList coerceDictStrStr
  && fieldOkOpt fs "supporting_evidence".toList coerceListStr
  && fieldOkOpt fs "alternative_levels".toList coerceListStr
  && fieldOkOpt fs "change_context_used".toList coerceBool
  && fieldOkOpt fs "comparable_positions".toList coerceListStr

/-! ## Response parsing: JSON extraction from fenced model text (C2)

The identical extraction block appears in `comparator.py` (lines 117-129),
`classifier.py` (lines 164-176) and `gauge.py` (lines 170-182). -/

/-- The `"```json"` marker (7 characters). -/
def jsonFence : Str := "```json".toList

/-- The plain `"```"` fence (3 characters). -/
def codeFence : Str := "```".toList

/-- The shared JSON extraction block: on `"```json"` take from after that
marker to the next `"```"`; else on `"```"` take between the first two
fences; else strip the whole text.  `find` returns `-1` when the closing
fence is missing, which Python slicing then treats as "up to the last
character exclusive". -/
def extractJson (text : Str) : Str :=
  if isSubstrL jsonFence text then
    let json_start : Int := pyFind text jsonFence 0 + 7
    let json_end : Int := pyFind text codeFence json_start
    pyStrip (pySlice text json_start json_end)
  else if isSubstrL codeFence text then
    let json_start : Int := pyFind text codeFence 0 + 3
    let json_end : Int := pyFind text codeFence json_start
    pyStrip (pySlice text json_start json_end)
  else
    pyStrip text

/-- The parse step of `_analyze_with_claude`: extract, then `json.loads`.
The JSON decoder itself is a parameter (any partial parse function); a
decode failure is re-raised unchanged — there is no recovery branch, the
`except` clause in gauge/classifier only logs and re-raises. -/
def analyzeResponse (decode : Str → Except Str (List (Str × JValue)))
    (text : Str) : Except Str (List (Str × JValue)) :=
  decode (extractJson text)

/-! ## `RevaluationGauge._extract_level_from_path` (C9)

`re.search(r'EC[\s-]?(\d{1,2})', filename, re.IGNORECASE)` followed by
`match.group(1).zfill(2)`. -/

/-- A character matched by the regex class `[\s-]`. -/
def ecSepChar (c : Char) : Bool := pyWsChar c || c = '-'

/-- Greedy `\d{1,2}` at the head of a string: one digit, two when the
second character is also a digit; `none` when the head is not a digit. -/
def takeDigits2 : Str → Option Str
  | [] => none
  | d :: rest =>
    if d.isDigit then
      some (d :: (match rest with
        | e :: _ => if e.isDigit then [e] else []
        | [] => []))
    else none

/-- Match `EC[\s-]?(\d{1,2})` (case-insensitive) anchored at the head of
`cs`, returning the digit group.  The optional `[\s-]` can never rescue a
failed digit match (no separator character is a digit), so trying digits
first and separator-then-digits second is exactly the regex's backtracking
behaviour. -/
def ecMatchHere : Str → Option Str
  | c1 :: c2 :: rest =>
    if (c1 = 'E' ∨ c1 = 'e') ∧ (c2 = 'C' ∨ c2 = 'c') then
      match takeDigits2 rest with
      | some g => some g
      | none =>
        match rest with
        | s :: rest2 => if ecSepChar s then takeDigits2 rest2 else none
        | [] => none
    else none
  | _ => none

/-- `re.search`: leftmost match of `EC[\s-]?(\d{1,2})`, returning its digit
group. -/
def ecSearch : Str → Option Str
  | [] => none
  | c :: rest =>
    match ecMatchHere (c :: rest) with
    | some g => some g
    | none => ecSearch rest

/-- `RevaluationGauge._extract_level_from_path` (gauge.py lines 120-137). -/
def extract_level_from_path (path : Str) : Str :=
  let filename := lastComponent path
  match ecSearch filename with
  | some g => "EC-".toList ++ zfill2 g
  | none => "EC-Unknown".toList

/-- The claim's own pattern: `EC` followed by an optional *space or hyphen*
(not an arbitrary whitespace character) and one or two digits, anchored at
the head. -/
def claimEcMatchHere : Str → Option Str
  | c1 :: c2 :: rest =>
    if (c1 = 'E' ∨ c1 = 'e') ∧ (c2 = 'C' ∨ c2 = 'c') then
      match takeDigits2 rest with
      | some g => some g
      | none =>
        match rest with
        | s :: rest2 => if s = ' ' || s = '-' then takeDigits2 rest2 else none
        | [] => none
    else none
  | _ => none

/-- "The filename contains EC followed by an optional space or hyphen and
one or two digits (case-insensitive)" — the claim's containment predicate. -/
def claimEcContains (cs : Str) : Bool :=
  (List.range cs.length).any (fun i => (claimEcMatchHere (cs.drop i)).isSome)

/-! ## job-evaluation `sanitize_filename` (C10) -/

/-- `sanitize_filename` (api.py lines 151-157): keep alphanumerics, space,
hyphen and underscore, replacing every other character with `'_'`; then
`"_".join(safe.split())`; then truncate to 100 characters. -/
def sanitize_filename (filename : Str) : Str :=
  let safe := filename.map (fun c =>
    if c.isAlphanum || c = ' ' || c = '-' || c = '_' then c else '_')
  let safe2 := joinUnd (pySplitWs safe)
  safe2.take 100

/-- Replace every maximal whitespace run by a single underscore
(`prevWs` records whether the previous character was whitespace). -/
def collapseWsGo (prevWs : Bool) : Str → Str
  | [] => []
  | c :: cs =>
    if pyWsChar c then
      (if prevWs then [] else ['_']) ++ collapseWsGo true cs
    else c :: collapseWsGo false cs

/-- Replace every maximal whitespace run by a single underscore. -/
def collapseWsToUnd (s : Str) : Str := collapseWsGo false s

/-- The transformation described by the claim, read operationally: collapse
every whitespace run into a single underscore, replace every remaining
character that is not alphanumeric, `'-'` or `'_'` with `'_'`, truncate to
100. -/
def sanitizeClaimed (filename : Str) : Str :=
  ((collapseWsToUnd filename).map (fun c =>
    if c.isAlphanum || c = '-' || c = '_' then c else '_')).take 100

/-! ## job-description data model (`models.py`)

`Optional[str]` fields that the formatter only tests for truthiness are
plain `Str` (with `[]` for `None`); `Optional[bool]` tested with
`is not None` is `Option Bool`. -/

/-- `ExclusionStatus` enum. -/
inductive ExclusionStatus where
  | excluded
  | nonExcluded
deriving DecidableEq, Repr

/-- `.value` of the `ExclusionStatus` enum. -/
def ExclusionStatus.value : ExclusionStatus → Str
  | .excluded => "Excluded".toList
  | .nonExcluded => "Non-Excluded".toList

/-- `ClassificationJobInformation`. -/
structure ClassificationJobInformation where
  sap_job_id : Str
  position_classification_title : Str
  pay_grade : Str
  add_on_eligibility : Option Bool
  standardized : Bool
  inactive : Bool
  date_last_evaluated : Str
deriving DecidableEq, Repr

/-- `JobInformation`. -/
structure JobInformation where
  job_working_title : Str
  department : Str
  division_section : Str
  reports_to : Str
  reports_to_sap_id : Str
  exclusion_status : ExclusionStatus
deriving DecidableEq, Repr

/-- `OverallPurpose`. -/
structure OverallPurpose where
  purpose_text : Str
deriving DecidableEq, Repr

/-- `KeyResponsibilities`. -/
structure KeyResponsibilities where
  responsibilities : List Str
deriving DecidableEq, Repr

/-- `PeopleManagement` (`type_of_role` is a two-value `Literal`, carried as a
string). -/
structure PeopleManagement where
  type_of_role : Str
  num_direct_reports : Str
  classifications_of_direct_reports : Str
  num_indirect_reports : Str
  other_resources : Str
deriving DecidableEq, Repr

/-- `ScopeSection`. -/
structure ScopeSection where
  contacts_typical : Str
  innovation : Str
  decision_making : Str
  impact_of_results : Str
  other : Str
deriving DecidableEq, Repr

/-- `LicensesCertifications`. -/
structure LicensesCertifications where
  requirements : List Str
deriving DecidableEq, Repr

/-- `WorkingConditions`. -/
structure WorkingConditions where
  physical_effort : Str
  physical_environment : Str
  sensory_attention : Str
  psychological_pressures : Str
deriving DecidableEq, Repr

/-- `BoilerplateElements`. -/
structure BoilerplateElements where
  may_perform_other_duties : Str
  assignment_specific_note : Str
  data_from_conversion : Str
  additional_information : Str
deriving DecidableEq, Repr

/-- `UsageSummary` (cost figures carried as integer cents; the formatter
under study never reads them). -/
structure UsageSummary where
  total_input_tokens : Int
  total_output_tokens : Int
  total_tokens : Int
deriving DecidableEq, Repr

/-- `JobDescription`: the aggregate record. -/
structure JobDescription where
  classification_info : ClassificationJobInformation
  job_info : JobInformation
  overall_purpose : OverallPurpose
  key_responsibilities : KeyResponsibilities
  people_management : PeopleManagement
  scope : ScopeSection
  licenses_certifications : LicensesCertifications
  working_conditions : WorkingConditions
  boilerplate : BoilerplateElements
  usage : Option UsageSummary
deriving DecidableEq, Repr

/-! ## `format_console_output` (output_formatter.py lines 27-191)

The function builds a list of lines and joins them with `"\n"`.  It is
modelled section by section, in source order. -/

/-- `"=" * 80`. -/
def eq80 : Str := List.replicate 80 '='

/-- `"-" * 80`. -/
def dash80 : Str := List.replicate 80 '-'

/-- Python truthiness of a string. -/
def pyTruthy (s : Str) : Bool := s ≠ []

/-- Header block: banner, upper-cased working title, "JOB DESCRIPTION". -/
def headerSeg (jd : JobDescription) : List Str :=
  [eq80, pyUpper jd.job_info.job_working_title, "JOB DESCRIPTION".toList, eq80, []]

/-- Body of the CLASSIFICATION JOB INFORMATION section. -/
def classifBody (jd : JobDescription) : List Str :=
  let ci := jd.classification_info
  [dash80]
  ++ (if pyTruthy ci.sap_job_id then
        ["SAP Job ID: ".toList ++ ci.sap_job_id] else [])
  ++ ["Position/Classification Title: ".toList ++ ci.position_classification_title]
  ++ (if pyTruthy ci.pay_grade then ["Pay Grade: ".toList ++ ci.pay_grade] else [])
  ++ (match ci.add_on_eligibility with
      | some b => ["Add-On Eligibility: ".toList
          ++ (if b then "True".toList else "False".toList)]
      | none => [])
  ++ ["Standardized: ".toList ++ (if ci.standardized then "Yes".toList else "No".toList)]
  ++ ["Inactive: ".toList ++ (if ci.inactive then "Yes".toList else "No".toList)]
  ++ (if pyTruthy ci.date_last_evaluated then
        ["Date Last Evaluated: ".toList ++ ci.date_last_evaluated] else [])
  ++ [[]]

/-- CLASSIFICATION JOB INFORMATION section. -/
def classifSeg (jd : JobDescription) : List Str :=
  "CLASSIFICATION JOB INFORMATION".toList :: classifBody jd

/-- Body of the JOB INFORMATION section. -/
def jobInfoBody (jd : JobDescription) : List Str :=
  let ji := jd.job_info
  let reports_to_text :=
    ji.reports_to
    ++ (if pyTruthy ji.reports_to_sap_id then " - ".toList ++ ji.reports_to_sap_id
        else [])
  [dash80,
   "Job/Working Title: ".toList ++ ji.job_working_title,
   "Department: ".toList ++ ji.department]
  ++ (if pyTruthy ji.division_section then
        ["Division/Section: ".toList ++ ji.division_section] else [])
  ++ ["Reports To (Position Title): ".toList ++ reports_to_text,
      "Exclusion Status: ".toList ++ ji.exclusion_status.value,
      []]

/-- JOB INFORMATION section. -/
def jobInfoSeg (jd : JobDescription) : List Str :=
  "JOB INFORMATION".toList :: jobInfoBody jd

/-- Body of the OVERALL PURPOSE section. -/
def purposeBody (jd : JobDescription) : List Str :=
  [dash80, jd.overall_purpose.purpose_text, []]

/-- OVERALL PURPOSE section. -/
def purposeSeg (jd : JobDescription) : List Str :=
  "OVERALL PURPOSE".toList :: purposeBody jd

/-- Body of the KEY RESPONSIBILITIES section, with the boilerplate
paragraphs. -/
def responsibilitiesBody (jd : JobDescription) : List Str :=
  [dash80]
  ++ jd.key_responsibilities.responsibilities.flatMap
      (fun r => [['•', ' '] ++ r, ([] : Str)])
  ++ [jd.boilerplate.may_perform_other_duties, [],
      jd.boilerplate.assignment_specific_note, []]

/-- KEY RESPONSIBILITIES section. -/
def responsibilitiesSeg (jd : JobDescription) : List Str :=
  "KEY RESPONSIBILITIES".toList :: responsibilitiesBody jd

/-- Body of the PEOPLE MANAGEMENT section. -/
def peopleBody (jd : JobDescription) : List Str :=
  let pm := jd.people_management
  [dash80,
   "Type of Role: ".toList ++ pm.type_of_role]
  ++ (if pyTruthy pm.num_direct_reports then
        ["# of Direct Reports: ".toList ++ pm.num_direct_reports] else [])
  ++ (if pyTruthy pm.classifications_of_direct_reports then
        ["Classifications/Titles of Direct Reports: ".toList
          ++ pm.classifications_of_direct_reports] else [])
  ++ (if pyTruthy pm.num_indirect_reports then
        ["# of Indirect Reports: ".toList ++ pm.num_indirect_reports] else [])
  ++ (if pyTruthy pm.other_resources then
        ["Other Resources: ".toList ++ pm.other_resources] else [])
  ++ [[]]

/-- PEOPLE MANAGEMENT section. -/
def peopleSeg (jd : JobDescription) : List Str :=
  "PEOPLE MANAGEMENT".toList :: peopleBody jd

/-- Body of the SCOPE section. -/
def scopeBody (jd : JobDescription) : List Str :=
  [dash80,
   "Contacts (Typical):".toList, jd.scope.contacts_typical, [],
   "Innovation:".toList, jd.scope.innovation, [],
   "Decision Making:".toList, jd.scope.decision_making, [],
   "Impact of Results:".toList, jd.scope.impact_of_results, []]
  ++ (if pyTruthy jd.scope.other then
        ["Other:".toList, jd.scope.other, []] else [])

/-- SCOPE section. -/
def scopeSeg (jd : JobDescription) : List Str :=
  "SCOPE".toList :: scopeBody jd

/-- Body of the LICENSES/CERTIFICATIONS section. -/
def licensesBody (jd : JobDescription) : List Str :=
  [dash80]
  ++ (if jd.licenses_certifications.requirements ≠ [] then
        jd.licenses_certifications.requirements.map (fun r => ['•', ' '] ++ r)
      else ["(None specified)".toList])
  ++ [[]]

/-- LICENSES/CERTIFICATIONS section. -/
def licensesSeg (jd : JobDescription) : List Str :=
  "LICENSES/CERTIFICATIONS".toList :: licensesBody jd

/-- Body of the WORKING CONDITIONS section. -/
def workingBody (jd : JobDescription) : List Str :=
  [dash80,
   "Physical Effort".toList, jd.working_conditions.physical_effort, [],
   "Physical Environment".toList, jd.working_conditions.physical_environment, [],
   "Sensory Attention".toList, jd.working_conditions.sensory_attention, [],
   "Psychological Pressures".toList, jd.working_conditions.psychological_pressures, []]

/-- WORKING CONDITIONS section. -/
def workingSeg (jd : JobDescription) : List Str :=
  "WORKING CONDITIONS".toList :: workingBody jd

/-- Additional Information / Data From Conversion block. -/
def additionalSeg (jd : JobDescription) : List Str :=
  (if pyTruthy jd.boilerplate.additional_information then
    ["Additional Information:".toList, jd.boilerplate.additional_information, []]
   else [])
  ++ (if pyTruthy jd.boilerplate.data_from_conversion then
        ["Data From Conversion:".toList, jd.boilerplate.data_from_conversion, []]
      else [])

/-- Footer banner. -/
def footerSeg : List Str := [eq80, "End of Job Description".toList, eq80]

/-- All lines appended by `format_console_output`, in order. -/
def formatLines (jd : JobDescription) : List Str :=
  headerSeg jd ++ classifSeg jd ++ jobInfoSeg jd ++ purposeSeg jd
  ++ responsibilitiesSeg jd ++ peopleSeg jd ++ scopeSeg jd ++ licensesSeg jd
  ++ workingSeg jd ++ additionalSeg jd ++ footerSeg

/-- `format_console_output`: `"\n".join(output)`. -/
def format_console_output (jd : JobDescription) : Str := joinNl (formatLines jd)

/-! ## PDF / DOCX export (`export_utils.py`, C1)

`generate_pdf` (lines 16-106) and `generate_docx` (lines 109-175) run the
*same* skip/state logic over `content.split('\n')` — both Python functions
duplicate it verbatim — and differ only in how a surviving line is rendered.
The shared logic is `expAdvance`; the per-format renderings follow. -/

/-- Loop state of the export functions: `start_rendering` and
`skip_until_next_section`. -/
structure ExpState where
  startRendering : Bool
  skipSection : Bool
deriving DecidableEq, Repr

/-- The heading heuristic both exporters use for a stripped line: ALL CAPS
(`line == line.upper()`), non-empty, not a bullet, no colon. -/
def isHeadingLine (line : Str) : Bool :=
  line = pyUpper line && line ≠ [] && ¬ startsWithL ['•'] line && ¬ line.contains ':'

/-- One iteration of the shared export loop on a raw line: strip; drop
separator lines; flip `start_rendering` on `JOB INFORMATION`; drop
everything before it; enter skip mode on `CLASSIFICATION JOB INFORMATION`;
leave skip mode at the next ALL-CAPS line; drop the `Exclusion Status:`
line.  Returns the new state and the stripped line when it is to be
rendered. -/
def expAdvance (st : ExpState) (raw : Str) : ExpState × Option Str :=
  let line := pyStrip raw
  if startsWithL "===".toList line || startsWithL "---".toList line then
    (st, none)
  else
    let start1 := st.startRendering || (pyUpper line = "JOB INFORMATION".toList)
    if start1 = false then ({ startRendering := start1, skipSection := st.skipSection }, none)
    else if pyUpper line = "CLASSIFICATION JOB INFORMATION".toList then
      ({ startRendering := start1, skipSection := true }, none)
    else
      let skip1 := if st.skipSection
          && line = pyUpper line && line ≠ [] && ¬ startsWithL ['•'] line then
        false
      else st.skipSection
      if skip1 then ({ startRendering := start1, skipSection := skip1 }, none)
      else if startsWithL "Exclusion Status:".toList line then
        ({ startRendering := start1, skipSection := skip1 }, none)
      else ({ startRendering := start1, skipSection := skip1 }, some line)

/-- A flowable appended to the ReportLab `story` by `generate_pdf`. -/
inductive PdfBlock where
  | title (s : Str)
  | heading (s : Str)
  | normal (s : Str)
  | spacer
deriving DecidableEq, Repr

/-- A paragraph added to the document by `generate_docx`. -/
inductive DocxBlock where
  | heading1 (s : Str)
  | heading2 (s : Str)
  | bullet (s : Str)
  | par (s : Str)
  | blank
deriving DecidableEq, Repr

/-- How `generate_pdf` renders a surviving line: heading → title-cased,
HTML-escaped, title style; short line ending in a colon → heading style;
non-empty line → normal style; empty line → spacer.  (Bullets fall into the
normal-text branch.) -/
def pdfRender (line : Str) : PdfBlock :=
  if isHeadingLine line then .title (pyHtmlEscape (pyTitle line))
  else if endsWithL [':'] line && line.length < 50 then .heading (pyHtmlEscape line)
  else if line ≠ [] then .normal (pyHtmlEscape line)
  else .spacer

/-- How `generate_docx` renders a surviving line: heading → title-cased
level-1 heading; short line ending in a colon → level-2 heading; bullet
(`•`/`-`/`*`) → list item of the rest, stripped; non-empty → paragraph;
empty → empty paragraph. -/
def docxRender (line : Str) : DocxBlock :=
  if isHeadingLine line then .heading1 (pyTitle line)
  else if endsWithL [':'] line && line.length < 50 then .heading2 line
  else if startsWithL ['•'] line || startsWithL ['-'] line || startsWithL ['*'] line then
    .bullet (pyStrip (line.drop 1))
  else if line ≠ [] then .par line
  else .blank

/-- Run the export loop over a list of raw lines, collecting the rendered
blocks. -/
def expRun (render : Str → β) (st : ExpState) : List Str → ExpState × List β
  | [] => (st, [])
  | l :: ls =>
    let step := expAdvance st l
    let rest := expRun render step.1 ls
    (rest.1,
      (match step.2 with
        | some line => [render line]
        | none => []) ++ rest.2)

/-- The story `generate_pdf` builds from the text content. -/
def generate_pdf (content : Str) : List PdfBlock :=
  (expRun pdfRender ⟨false, false⟩ (splitNl content)).2

/-- The paragraph sequence `generate_docx` builds from the text content. -/
def generate_docx (content : Str) : List DocxBlock :=
  (expRun docxRender ⟨false, false⟩ (splitNl content)).2

/-- The heading texts (either level) of a DOCX export. -/
def docxHeadingTexts (blocks : List DocxBlock) : List Str :=
  blocks.filterMap fun b =>
    match b with
    | .heading1 s => some s
    | .heading2 s => some s
    | _ => none

/-- The heading texts (title or heading style) of a PDF export. -/
def pdfHeadingTexts (blocks : List PdfBlock) : List Str :=
  blocks.filterMap fun b =>
    match b with
    | .title s => some s
    | .heading s => some s
    | _ => none

/-- The seven top-level section headers the formatter emits at or after the
`JOB INFORMATION` line. -/
def postHeaders : List Str :=
  ["JOB INFORMATION".toList, "OVERALL PURPOSE".toList,
   "KEY RESPONSIBILITIES".toList, "PEOPLE MANAGEMENT".toList, "SCOPE".toList,
   "LICENSES/CERTIFICATIONS".toList, "WORKING CONDITIONS".toList]

/-! ## `POST /api/generate` (app.py lines 228-303, C3)

The two provider pipelines are awaited with
`asyncio.gather(..., return_exceptions=True)`; each outcome is therefore a
value or an exception, modelled as `Except Str JobDescription`.  The
response always carries both output strings; only non-exception results are
persisted via `_save_result`. -/

/-- Response model of `POST /api/generate`. -/
structure GenerationResponse where
  mistral_output : Str
  anthropic_output : Str
  job_id : Str
deriving DecidableEq, Repr

/-- `generate_job_descriptions` after the gather: builds the two output
strings (substituting an error banner for a failed provider), persists each
successful result, and returns the response.  The second component lists
the `(provider, record)` pairs passed to `_save_result`. -/
def generate_job_descriptions (job_id : Str)
    (mistral_result anthropic_result : Except Str JobDescription) :
    GenerationResponse × List (Str × JobDescription) :=
  let mistral_output :=
    match mistral_result with
    | .error e => "ERROR generating with Mistral:\n\n".toList ++ e
    | .ok jd => format_console_output jd
  let anthropic_output :=
    match anthropic_result with
    | .error e => "ERROR generating with Anthropic:\n\n".toList ++ e
    | .ok jd => format_console_output jd
  let saved :=
    (match mistral_result with
      | .ok jd => [("mistral".toList, jd)]
      | .error _ => [])
    ++ (match anthropic_result with
        | .ok jd => [("anthropic".toList, jd)]
        | .error _ => [])
  (⟨mistral_output, anthropic_output, job_id⟩, saved)

/-! ## `POST /api/classify` and `POST /api/full-workflow` (api.py, C5/C8)

The endpoints validate upload filenames before any pipeline stage runs;
stage outcomes (LLM calls) are parameters.  The second component of each
result records which pipeline stages were invoked, in order. -/

/-- Outcome of a job-evaluation endpoint: a job id on success, or an HTTP
error with status and detail. -/
inductive EvalOutcome where
  | ok (job_id : Str)
  | httpError (status : Nat) (detail : Str)
deriving DecidableEq, Repr

/-- `POST /api/classify` (api.py lines 188-231): validate the file type,
then run the classifier; any classifier exception becomes a 500. -/
def classify_position (job_id : Str) (filename : Option Str)
    (classifierResult : Except Str ClassificationRecommendation) :
    EvalOutcome × List Stage :=
  match validate_file_type filename with
  | some (code, detail) => (.httpError code detail, [])
  | none =>
    match classifierResult with
    | .error e => (.httpError 500 e, [.classify])
    | .ok _ => (.ok job_id, [.classify])

/-- `POST /api/full-workflow` (api.py lines 234-313): validate both files,
then compare → gauge → classify; the first stage exception becomes a 500. -/
def full_workflow (job_id : Str) (old_filename new_filename : Option Str)
    (compareResult : Except Str α)
    (gaugeResult : Except Str RevaluationRecommendation)
    (classifyResult : Except Str ClassificationRecommendation) :
    EvalOutcome × List Stage :=
  match validate_file_type old_filename with
  | some (code, detail) => (.httpError code detail, [])
  | none =>
    match validate_file_type new_filename with
    | some (code, detail) => (.httpError code detail, [])
    | none =>
      match compareResult with
      | .error e => (.httpError 500 e, [.compare])
      | .ok _ =>
        match gaugeResult with
        | .error e => (.httpError 500 e, [.compare, .gauge])
        | .ok _ =>
          match classifyResult with
          | .error e => (.httpError 500 e, [.compare, .gauge, .classify])
          | .ok _ => (.ok job_id, [.compare, .gauge, .classify])

/-! ## `FirstPassClassifier.classify` result handling (C8)

`classify` extracts the document text, calls `_analyze_with_claude` (prompt
→ model → `extractJson` → `json.loads`) and returns
`ClassificationRecommendation(**result)` — nothing between validation and
return inspects or alters the record, in particular no cross-field check of
`recommended_level` against `previous_level` exists. -/

/-- The classifier's result path from the raw model response text: extract
the fenced JSON, decode it (decoder passed in), validate.  The validated
record is returned unchanged. -/
def classifierResultOf (decode : Str → Except Str (List (Str × JValue)))
    (responseText : Str) : Except Str ClassificationRecommendation :=
  (analyzeResponse decode responseText).bind validateClassification

/-- Numeric part of an `"EC-XX"` level string, when it has that shape. -/
def ecNum (s : Str) : Option Nat :=
  match s with
  | 'E' :: 'C' :: '-' :: ds => digitsToNat ds
  | _ => none

/-- Lines of a list of text elements after `'\n'`-joining and re-splitting
(each element contributes its own `split('\n')` pieces). -/
def FL (ls : List Str) : List Str := ls.flatMap splitNl

/-! ## Concrete sample data used by counterexamples and witnesses -/

/-- A small concrete `JobDescription` (six responsibilities, as the schema
requires; optional fields mostly empty). -/
def jd0 : JobDescription :=
  { classification_info :=
      { sap_job_id := "S".toList, position_classification_title := "T".toList,
        pay_grade := "G".toList, add_on_eligibility := none,
        standardized := false, inactive := false,
        date_last_evaluated := "D".toList }
    job_info :=
      { job_working_title := "Planner".toList, department := "Lands".toList,
        division_section := [], reports_to := "Boss".toList,
        reports_to_sap_id := [], exclusion_status := .excluded }
    overall_purpose := { purpose_text := "P".toList }
    key_responsibilities :=
      { responsibilities :=
          ["A".toList, "B".toList, "C".toList, "D".toList, "E".toList,
           "F".toList] }
    people_management :=
      { type_of_role := "Individual Contributor".toList,
        num_direct_reports := [], classifications_of_direct_reports := [],
        num_indirect_reports := [], other_resources := [] }
    scope :=
      { contacts_typical := "C1".toList, innovation := "I1".toList,
        decision_making := "D1".toList, impact_of_results := "R1".toList,
        other := [] }
    licenses_certifications := { requirements := [] }
    working_conditions :=
      { physical_effort := "E1".toList, physical_environment := "E2".toList,
        sensory_attention := "E3".toList,
        psychological_pressures := "E4".toList }
    boilerplate :=
      { may_perform_other_duties := "M".toList,
        assignment_specific_note := "N".toList, data_from_conversion := [],
        additional_information := [] }
    usage := none }

/-- A parsed gauge response with every required field present and well
typed and `confidence` in range. -/
def gaugeFields0 : List (Str × JValue) :=
  [("should_reevaluate".toList, .jbool true),
   ("confidence".toList, .jnum 85),
   ("current_level".toList, .jstr "EC-10".toList),
   ("likely_new_level_range".toList, .jstr "EC-10 to EC-11".toList),
   ("rationale".toList, .jstr "R".toList),
   ("key_factors".toList, .jarr [.jstr "K1".toList]),
   ("categories_affected".toList, .jarr []),
   ("risk_assessment".toList, .jstr "low".toList)]

/-- A parsed classifier response that satisfies the field-level schema while
recommending a level strictly below the documented previous level. -/
def clsFields0 : List (Str × JValue) :=
  [("position_title".toList, .jstr "Policy Analyst".toList),
   ("recommended_level".toList, .jstr "EC-05".toList),
   ("confidence".toList, .jnum 90),
   ("previous_level".toList, .jstr "EC-10".toList),
   ("rationale".toList, .jstr "R".toList)]

/-- The record `validateRevaluation gaugeFields0` produces. -/
def revRec0 : RevaluationRecommendation :=
  ⟨true, 85, "EC-10".toList, "EC-10 to EC-11".toList, "R".toList,
   ["K1".toList], [], "low".toList⟩

/-- The record `validateClassification clsFields0` produces. -/
def clsRec0 : ClassificationRecommendation :=
  ⟨"Policy Analyst".toList, "EC-05".toList, 90, some "EC-10".toList,
   "R".toList, [], [], [], false, []⟩

/-- A decoder that always yields `clsFields0` (a stand-in for `json.loads`
on a response whose payload is that object). -/
def decodeCls0 : Str → Except Str (List (Str × JValue)) := fun _ => .ok clsFields0

/-- A decoder that always fails (a stand-in for `json.loads` raising). -/
def decodeFail0 : Str → Except Str (List (Str × JValue)) :=
  fun _ => .error "Expecting value".toList

/-! # Theorems -/

/-! ## Shared string lemmas -/

theorem startsWithL_mono {p q : Str} (t : Str) (h : startsWithL p q = true) :
    startsWithL p (q ++ t) = true := by
  induction p generalizing q with
  | nil => simp [startsWithL]
  | cons x xs ih =>
    cases q with
    | nil => simp [startsWithL] at h
    | cons c cs =>
      simp only [startsWithL, Bool.and_eq_true] at h ⊢
      exact ⟨h.1, ih h.2⟩

theorem startsWithL_self_append (p t : Str) : startsWithL p (p ++ t) = true := by
  induction p with
  | nil => simp [startsWithL]
  | cons x xs ih => simp [startsWithL, ih]

theorem startsWithL_trans {p q s : Str} (h1 : startsWithL p q = true)
    (h2 : startsWithL q s = true) : startsWithL p s = true := by
  induction p generalizing q s with
  | nil => simp [startsWithL]
  | cons x xs ih =>
    cases q with
    | nil => simp [startsWithL] at h1
    | cons c cs =>
      cases s with
      | nil => simp [startsWithL] at h2
      | cons d ds =>
        simp only [startsWithL, Bool.and_eq_true, decide_eq_true_eq] at h1 h2 ⊢
        exact ⟨h1.1.trans h2.1, ih h1.2 h2.2⟩

theorem isSubstrL_of_startsWith {p s : Str} (h : startsWithL p s = true) :
    isSubstrL p s = true := by
  cases s with
  | nil => simpa [isSubstrL] using h
  | cons c cs => simp [isSubstrL, h]

theorem isSubstrL_append_right {p s : Str} (t : Str) (h : isSubstrL p s = true) :
    isSubstrL p (s ++ t) = true := by
  induction s with
  | nil =>
    simp only [isSubstrL] at h
    exact isSubstrL_of_startsWith (startsWithL_mono t h)
  | cons c cs ih =>
    simp only [isSubstrL, Bool.or_eq_true] at h
    rcases h with h | h
    · simp only [List.cons_append, isSubstrL, Bool.or_eq_true]
      exact Or.inl (by simpa using startsWithL_mono t h)
    · simp only [List.cons_append, isSubstrL, Bool.or_eq_true]
      exact Or.inr (ih h)

theorem isSubstrL_append_left {p s : Str} (a : Str) (h : isSubstrL p s = true) :
    isSubstrL p (a ++ s) = true := by
  induction a with
  | nil => simpa using h
  | cons c cs ih => simp only [List.cons_append, isSubstrL, Bool.or_eq_true]; exact Or.inr ih

/-! ## C6: the config endpoint -/

/-- C6: after `POST /api/config` with body `organization_name = "Acme"`,
`industry = "Tech"`, `location = "Halifax"`, `organization_description = ""`,
a `GET /api/config` returns exactly that payload, from any prior config
state; and posting the same organizational context twice yields the same
subsequent GET result as posting it once. -/
theorem config_post_get_roundtrip_and_idempotent :
    (∀ s : ConfigState,
      get_config (update_config s
        ⟨"Acme".toList, "Tech".toList, "Halifax".toList, some []⟩)
        = ⟨"Acme".toList, "Tech".toList, "Halifax".toList, []⟩)
    ∧ (∀ (s : ConfigState) (u : ConfigUpdate),
        get_config (update_config (update_config s u) u)
          = get_config (update_config s u)) :=
  ⟨fun _ => rfl, fun _ _ => rfl⟩

/-! ## C3: `POST /api/generate` with one failing provider -/

/-- C3: when exactly one of the two concurrently awaited provider pipelines
raises, `POST /api/generate` still returns a success response whose failed
side is an error banner beginning `"ERROR generating with"`, whose
successful side is the formatted job description, and only the successful
provider's record is persisted. -/
theorem generate_single_provider_failure :
    ∀ (job_id e : Str) (jd : JobDescription),
      (generate_job_descriptions job_id (.error e) (.ok jd)
        = (⟨"ERROR generating with Mistral:\n\n".toList ++ e,
            format_console_output jd, job_id⟩, [("anthropic".toList, jd)])
       ∧ startsWithL "ERROR generating with".toList
          ("ERROR generating with Mistral:\n\n".toList ++ e) = true)
      ∧ (generate_job_descriptions job_id (.ok jd) (.error e)
        = (⟨format_console_output jd,
            "ERROR generating with Anthropic:\n\n".toList ++ e, job_id⟩,
            [("mistral".toList, jd)])
       ∧ startsWithL "ERROR generating with".toList
          ("ERROR generating with Anthropic:\n\n".toList ++ e) = true) := by
  intro job_id e jd
  refine ⟨⟨rfl, ?_⟩, rfl, ?_⟩
  · exact startsWithL_mono e (by decide)
  · exact startsWithL_mono e (by decide)

/-! ## C4: the two download endpoints -/

/-- C4: for a `format` outside `txt`/`pdf`/`docx` both download endpoints
return 400 with a detail containing `"Invalid format"`; for a valid format
whose glob pattern (built from the job/session identifier) matches no file
in the output directory, both return 404 with a detail containing
`"not found"`. -/
theorem download_invalid_format_and_missing_file :
    ∀ (files : List Str) (provider job_id format : Str),
      (¬ (format = "txt".toList ∨ format = "pdf".toList ∨ format = "docx".toList) →
        (∃ d, download_evaluation files job_id format = .httpError 400 d
            ∧ isSubstrL "Invalid format".toList d = true)
        ∧ (∃ d, download_job_description files provider job_id format
              = .httpError 400 d
            ∧ isSubstrL "Invalid format".toList d = true))
      ∧ ((format = "txt".toList ∨ format = "pdf".toList ∨ format = "docx".toList) →
          (∀ f ∈ files,
              globMatch ("job_eval_*_".toList ++ job_id ++ '.' :: format) f = false) →
          ∃ d, download_evaluation files job_id format = .httpError 404 d
            ∧ isSubstrL "not found".toList d = true)
      ∧ ((format = "txt".toList ∨ format = "pdf".toList ∨ format = "docx".toList) →
          (∀ f ∈ files,
              globMatch ("job_description_*_".toList ++ job_id ++ '_' :: provider
                ++ '.' :: format) f = false) →
          ∃ d, download_job_description files provider job_id format
              = .httpError 404 d
            ∧ isSubstrL "not found".toList d = true) := by
  intro files provider job_id format
  refine ⟨fun hbad => ?_, fun hok hnone => ?_, fun hok hnone => ?_⟩
  · refine ⟨⟨"Invalid format. Must be txt, pdf, or docx".toList, ?_, by decide⟩,
      ⟨"Invalid format. Must be txt, pdf, or docx".toList, ?_, by decide⟩⟩
    · unfold download_evaluation
      rw [if_pos hbad]
    · unfold download_job_description
      rw [if_pos hbad]
  · refine ⟨"Evaluation file not found for format: ".toList ++ format, ?_, ?_⟩
    · have hfil : files.filter
          (globMatch ("job_eval_*_".toList ++ job_id ++ '.' :: format)) = [] :=
        List.filter_eq_nil_iff.mpr (by simpa using hnone)
      unfold download_evaluation
      rw [if_neg (not_not_intro hok)]
      simp only [hfil]
    · exact isSubstrL_append_right format
        (isSubstrL_append_left "Evaluation file ".toList (by decide))
  · refine ⟨"Job description file not found for format: ".toList ++ format, ?_, ?_⟩
    · have hfil : files.filter
          (globMatch ("job_description_*_".toList ++ job_id ++ '_' :: provider
            ++ '.' :: format)) = [] :=
        List.filter_eq_nil_iff.mpr (by simpa using hnone)
      unfold download_job_description
      rw [if_neg (not_not_intro hok)]
      simp only [hfil]
    · exact isSubstrL_append_right format
        (isSubstrL_append_left "Job description file ".toList (by decide))

/-! ## C5: unsupported upload extensions are rejected before any stage -/

/-- C5: an upload whose lower-cased filename extension is not
`.pdf`/`.docx`/`.doc` makes `POST /api/classify` and
`POST /api/full-workflow` (in either file position; for the second position,
under a first file that passes validation) return 400 with a detail
containing `"Unsupported file type"`, with no pipeline stage invoked. -/
theorem unsupported_extension_rejected_before_pipeline :
    ∀ (job_id fn : Str),
      fn ≠ [] →
      ¬ (pyLower (pySuffix fn) = ".pdf".toList
         ∨ pyLower (pySuffix fn) = ".docx".toList
         ∨ pyLower (pySuffix fn) = ".doc".toList) →
      (∀ cres, ∃ d,
          classify_position job_id (some fn) cres = (.httpError 400 d, [])
          ∧ isSubstrL "Unsupported file type".toList d = true)
      ∧ (∀ (newfn : Option Str) (cmp : Except Str Nat) g c, ∃ d,
          full_workflow job_id (some fn) newfn cmp g c = (.httpError 400 d, [])
          ∧ isSubstrL "Unsupported file type".toList d = true)
      ∧ (∀ (old : Str) (cmp : Except Str Nat) g c,
          validate_file_type (some old) = none →
          ∃ d,
            full_workflow job_id (some old) (some fn) cmp g c
              = (.httpError 400 d, [])
            ∧ isSubstrL "Unsupported file type".toList d = true) := by
  intro job_id fn hne hbad
  have hval : validate_file_type (some fn)
      = some (400, "Unsupported file type: ".toList ++ pyLower (pySuffix fn)
          ++ ". Only PDF and DOCX allowed.".toList) := by
    simp only [validate_file_type]
    rw [if_neg hne]
    simp only [if_neg hbad]
  have hsub : isSubstrL "Unsupported file type".toList
      ("Unsupported file type: ".toList ++ pyLower (pySuffix fn)
        ++ ". Only PDF and DOCX allowed.".toList) = true := by
    rw [List.append_assoc]
    exact isSubstrL_append_right _ (by decide)
  refine ⟨fun cres => ⟨_, ?_, hsub⟩, fun newfn cmp g c => ⟨_, ?_, hsub⟩,
    fun old cmp g c hold => ⟨_, ?_, hsub⟩⟩
  · unfold classify_position
    rw [hval]
  · unfold full_workflow
    rw [hval]
  · unfold full_workflow
    rw [hold, hval]

/-! ## C9: `_extract_level_from_path` -/

theorem ecSearch_eq_some {cs : Str} {j : Nat} {g : Str}
    (hbefore : ∀ i < j, ecMatchHere (cs.drop i) = none)
    (hat : ecMatchHere (cs.drop j) = some g) : ecSearch cs = some g := by
  induction cs generalizing j with
  | nil => simp [ecMatchHere] at hat
  | cons c rest ih =>
    cases j with
    | zero =>
      simp only [List.drop_zero] at hat
      simp [ecSearch, hat]
    | succ j =>
      have h0 : ecMatchHere (c :: rest) = none := by
        simpa using hbefore 0 (Nat.succ_pos j)
      have hb : ∀ i < j, ecMatchHere (rest.drop i) = none := fun i hi => by
        simpa using hbefore (i + 1) (Nat.succ_lt_succ hi)
      have ha : ecMatchHere (rest.drop j) = some g := by simpa using hat
      simp [ecSearch, h0, ih hb ha]

theorem ecSearch_eq_none {cs : Str}
    (h : ∀ i, ecMatchHere (cs.drop i) = none) : ecSearch cs = none := by
  induction cs with
  | nil => simp [ecSearch]
  | cons c rest ih =>
    have h0 : ecMatchHere (c :: rest) = none := by simpa using h 0
    have hrest : ecSearch rest = none := ih (fun i => by simpa using h (i + 1))
    simp [ecSearch, h0, hrest]

/-- C9 (amended): the gauge's current level comes solely from the new
document's filename.  When the leftmost position of the filename at which
`EC`, an optional whitespace character or hyphen, and one or two digits
match (case-insensitively) yields digit group `g`,
`_extract_level_from_path` returns `"EC-"` plus `g` zero-padded to two
characters; when no position matches, it returns `"EC-Unknown"`. -/
theorem extract_level_from_filename_characterization :
    ∀ (path : Str),
      (∀ (j : Nat) (g : Str),
        (∀ i < j, ecMatchHere ((lastComponent path).drop i) = none) →
        ecMatchHere ((lastComponent path).drop j) = some g →
        extract_level_from_path path = "EC-".toList ++ zfill2 g)
      ∧ ((∀ i, ecMatchHere ((lastComponent path).drop i) = none) →
          extract_level_from_path path = "EC-Unknown".toList) := by
  intro path
  constructor
  · intro j g hbefore hat
    simp only [extract_level_from_path, ecSearch_eq_some hbefore hat]
  · intro h
    simp only [extract_level_from_path, ecSearch_eq_none h]

/-- C9 counterexample to the claim as stated: the filename `"EC\t07.pdf"`
does not contain `EC` followed by an optional *space or hyphen* and digits,
so the claim's second half demands `"EC-Unknown"`; but the code's `[\s-]`
class accepts the tab and the function returns `"EC-07"`. -/
theorem extract_level_tab_counterexample :
    claimEcContains (lastComponent "EC\t07.pdf".toList) = false
    ∧ extract_level_from_path "EC\t07.pdf".toList = "EC-07".toList
    ∧ ("EC-07".toList : Str) ≠ "EC-Unknown".toList := by
  refine ⟨by decide, by decide, by decide⟩

/-! ## C10: `sanitize_filename` (job-evaluation) -/

theorem mem_joinUnd {c : Char} :
    ∀ {ws : List Str}, c ∈ joinUnd ws → c = '_' ∨ ∃ w ∈ ws, c ∈ w := by
  intro ws
  induction ws with
  | nil => intro h; simp [joinUnd] at h
  | cons w ws ih =>
    intro h
    cases ws with
    | nil =>
      simp only [joinUnd] at h
      exact Or.inr ⟨w, by simp, h⟩
    | cons w2 ws2 =>
      simp only [joinUnd, List.mem_append, List.mem_cons] at h
      rcases h with h | h | h
      · exact Or.inr ⟨w, by simp, h⟩
      · exact Or.inl h
      · rcases ih h with h' | ⟨w', hw', hc'⟩
        · exact Or.inl h'
        · exact Or.inr ⟨w', by simp [List.mem_cons] at hw' ⊢; tauto, hc'⟩

theorem pySplitWsGo_chars :
    ∀ (s cur : Str), (∀ c ∈ cur, pyWsChar c = false) →
      ∀ w ∈ pySplitWsGo cur s, ∀ c ∈ w, (c ∈ cur ∨ c ∈ s) ∧ pyWsChar c = false := by
  intro s
  induction s with
  | nil =>
    intro cur hcur w hw c hc
    by_cases h : cur = []
    · simp [pySplitWsGo, h] at hw
    · simp only [pySplitWsGo, if_neg h, List.mem_singleton] at hw
      subst hw
      rw [List.mem_reverse] at hc
      exact ⟨Or.inl hc, hcur c hc⟩
  | cons a as ih =>
    intro cur hcur w hw c hc
    by_cases hws : pyWsChar a
    · by_cases hcur0 : cur = []
      · simp only [pySplitWsGo, hws, if_true, hcur0, if_pos rfl] at hw
        have := ih [] (by simp) w hw c hc
        exact ⟨Or.inr (List.mem_cons_of_mem a (this.1.resolve_left (by simp))),
          this.2⟩
      · simp only [pySplitWsGo, hws, if_true, if_neg hcur0, List.mem_cons] at hw
        rcases hw with rfl | hw
        · rw [List.mem_reverse] at hc
          exact ⟨Or.inl hc, hcur c hc⟩
        · have := ih [] (by simp) w hw c hc
          exact ⟨Or.inr (List.mem_cons_of_mem a (this.1.resolve_left (by simp))),
            this.2⟩
    · simp only [pySplitWsGo, hws, if_false] at hw
      have hcur' : ∀ d ∈ (a :: cur), pyWsChar d = false := by
        intro d hd
        rcases List.mem_cons.mp hd with rfl | hd
        · simpa using hws
        · exact hcur d hd
      have := ih (a :: cur) hcur' w hw c hc
      rcases this.1 with h1 | h1
      · rcases List.mem_cons.mp h1 with rfl | h1
        · exact ⟨Or.inr (by simp), this.2⟩
        · exact ⟨Or.inl h1, this.2⟩
      · exact ⟨Or.inr (List.mem_cons_of_mem a h1), this.2⟩

/-- C10 (amended): for every input, the job-evaluation `sanitize_filename`
returns a string of length at most 100 whose characters are all
alphanumeric, `'-'` or `'_'` — in particular never a path separator. -/
theorem sanitize_filename_safe :
    ∀ s : Str,
      (sanitize_filename s).length ≤ 100
      ∧ ∀ c ∈ sanitize_filename s, c.isAlphanum = true ∨ c = '-' ∨ c = '_' := by
  intro s
  constructor
  · exact List.length_take_le 100 _
  · intro c hc
    have hc' : c ∈ joinUnd (pySplitWs
        (s.map (fun c =>
          if c.isAlphanum || c = ' ' || c = '-' || c = '_' then c else '_'))) :=
      List.take_subset 100 _ hc
    rcases mem_joinUnd hc' with rfl | ⟨w, hw, hcw⟩
    · exact Or.inr (Or.inr rfl)
    · have h2 := pySplitWsGo_chars _ [] (by simp) w hw c hcw
      have hcmem : c ∈ s.map (fun c =>
          if c.isAlphanum || c = ' ' || c = '-' || c = '_' then c else '_') :=
        h2.1.resolve_left (by simp)
      have hnws : pyWsChar c = false := h2.2
      rcases List.mem_map.mp hcmem with ⟨a, _, rfl⟩
      by_cases hp : (a.isAlphanum || a = ' ' || a = '-' || a = '_') = true
      · rw [if_pos hp] at hnws ⊢
        simp only [Bool.or_eq_true, decide_eq_true_eq] at hp
        rcases hp with ((ha | ha) | ha) | ha
        · exact Or.inl ha
        · subst ha; simp [pyWsChar] at hnws
        · exact Or.inr (Or.inl ha)
        · exact Or.inr (Or.inr ha)
      · rw [if_neg hp]
        exact Or.inr (Or.inr rfl)

/-- C10 counterexample to the claim as stated: on `"a\t\tb"` the claim's
"whitespace runs are collapsed into single underscores" demands `"a_b"`,
but each tab is replaced by its own underscore and the code returns
`"a__b"`. -/
theorem sanitize_filename_tab_counterexample :
    sanitize_filename "a\t\tb".toList = "a__b".toList
    ∧ sanitizeClaimed "a\t\tb".toList = "a_b".toList
    ∧ sanitize_filename "a\t\tb".toList ≠ sanitizeClaimed "a\t\tb".toList := by
  refine ⟨by decide, by decide, by decide⟩

/-! ## C2: JSON extraction from fenced model responses -/

theorem firstOccur_split (pat a b : Str) (hne : pat ≠ [])
    (hnotin : ∀ j < a.length, startsWithL pat ((a ++ b).drop j) = false)
    (hhere : startsWithL pat b = true) :
    firstOccur pat (a ++ b) = some a.length := by
  induction a with
  | nil =>
    cases b with
    | nil =>
      cases pat with
      | nil => exact absurd rfl hne
      | cons p ps => simp [startsWithL] at hhere
    | cons c cs => simp [firstOccur, hhere]
  | cons x a' ih =>
    have h0 : startsWithL pat (x :: (a' ++ b)) = false := by
      simpa using hnotin 0 (Nat.succ_pos _)
    have ih' : firstOccur pat (a' ++ b) = some a'.length := by
      refine ih (fun j hj => ?_)
      simpa using hnotin (j + 1) (Nat.succ_lt_succ hj)
    simp [firstOccur, h0, ih']

theorem pyFind_zero_of_firstOccur {s pat : Str} {k : Nat}
    (h : firstOccur pat s = some k) : pyFind s pat 0 = (k : Int) := by
  simp [pyFind, h]

theorem pySlice_middle (x y z : Str) :
    pySlice (x ++ (y ++ z)) (x.length : Int)
      ((x.length + y.length : Nat) : Int) = y := by
  have hL : (x ++ (y ++ z)).length = x.length + (y.length + z.length) := by
    simp [List.length_append]
  simp only [pySlice]
  rw [if_neg (by omega), if_neg (by omega)]
  rw [show (min ((x.length + y.length : Nat) : Int)
        ((x ++ (y ++ z)).length : Int)).toNat = x.length + y.length from by
      rw [hL]; omega]
  rw [show (min ((x.length : Nat) : Int)
        ((x ++ (y ++ z)).length : Int)).toNat = x.length from by
      rw [hL]; omega]
  rw [List.take_append, List.take_left, List.drop_left]

theorem startsWithL_sub_of_startsWithL {p q s : Str}
    (hpq : startsWithL p q = true) (h : startsWithL q s = true) :
    startsWithL p s = true := startsWithL_trans hpq h

theorem isSubstrL_mono_pat {p q s : Str} (hpq : startsWithL p q = true)
    (h : isSubstrL q s = true) : isSubstrL p s = true := by
  induction s with
  | nil =>
    simp only [isSubstrL] at h ⊢
    cases q with
    | nil => cases p with
      | nil => simp [startsWithL]
      | cons x xs => simp [startsWithL] at hpq
    | cons y ys => simp [startsWithL] at h
  | cons c cs ih =>
    simp only [isSubstrL, Bool.or_eq_true] at h ⊢
    rcases h with h | h
    · exact Or.inl (startsWithL_trans hpq h)
    · exact Or.inr (ih h)

/-- C2: the response parser's JSON extraction.  (1) When the text splits as
`a ++ "```json" ++ b ++ "```" ++ c` with the shown `"```json"` the first
occurrence and the shown `"```"` the first fence after it, the extracted
payload is `strip b`.  (2) When there is no `"```json"` and the text splits
as `a ++ "```" ++ b ++ "```" ++ c` around its first two fences, the payload
is `strip b`.  (3) With no fence at all, the whole stripped text is the
payload.  (4) The decode step is applied to exactly that extraction, and a
decode failure propagates unrecovered. -/
theorem response_json_extraction :
    (∀ a b c : Str,
      (∀ j < a.length,
        startsWithL jsonFence ((a ++ (jsonFence ++ (b ++ (codeFence ++ c)))).drop j)
          = false) →
      (∀ j < b.length,
        startsWithL codeFence ((b ++ (codeFence ++ c)).drop j) = false) →
      extractJson (a ++ (jsonFence ++ (b ++ (codeFence ++ c)))) = pyStrip b)
    ∧ (∀ a b c : Str,
      isSubstrL jsonFence (a ++ (codeFence ++ (b ++ (codeFence ++ c)))) = false →
      (∀ j < a.length,
        startsWithL codeFence ((a ++ (codeFence ++ (b ++ (codeFence ++ c)))).drop j)
          = false) →
      (∀ j < b.length,
        startsWithL codeFence ((b ++ (codeFence ++ c)).drop j) = false) →
      extractJson (a ++ (codeFence ++ (b ++ (codeFence ++ c)))) = pyStrip b)
    ∧ (∀ text : Str, isSubstrL codeFence text = false →
        extractJson text = pyStrip text)
    ∧ (∀ (decode : Str → Except Str (List (Str × JValue))) (text e : Str),
        decode (extractJson text) = .error e →
        analyzeResponse decode text = .error e) := by
  refine ⟨?_, ?_, ?_, ?_⟩
  · intro a b c ha hb
    have h1 : isSubstrL jsonFence
        (a ++ (jsonFence ++ (b ++ (codeFence ++ c)))) = true :=
      isSubstrL_append_left a (isSubstrL_of_startsWith
        (startsWithL_self_append jsonFence (b ++ (codeFence ++ c))))
    have hfo1 : firstOccur jsonFence
        (a ++ (jsonFence ++ (b ++ (codeFence ++ c)))) = some a.length :=
      firstOccur_split jsonFence a (jsonFence ++ (b ++ (codeFence ++ c)))
        (by decide) ha (startsWithL_self_append _ _)
    have hpf1 : pyFind (a ++ (jsonFence ++ (b ++ (codeFence ++ c)))) jsonFence 0
        = (a.length : Int) := pyFind_zero_of_firstOccur hfo1
    have hdrop : (a ++ (jsonFence ++ (b ++ (codeFence ++ c)))).drop
        (a.length + 7) = b ++ (codeFence ++ c) := by
      have hT : a ++ (jsonFence ++ (b ++ (codeFence ++ c)))
          = (a ++ jsonFence) ++ (b ++ (codeFence ++ c)) := by
        simp [List.append_assoc]
      rw [hT]
      exact List.drop_left' (by rw [List.length_append]; rfl)
    have hfo2 : firstOccur codeFence (b ++ (codeFence ++ c)) = some b.length :=
      firstOccur_split codeFence b (codeFence ++ c) (by decide) hb
        (startsWithL_self_append _ _)
    have hst : ((a.length : Int) + 7).toNat = a.length + 7 := by omega
    have hpf2 : pyFind (a ++ (jsonFence ++ (b ++ (codeFence ++ c)))) codeFence
        ((a.length : Int) + 7) = ((a.length + 7 + b.length : Nat) : Int) := by
      simp only [pyFind, hst, hdrop, hfo2]
    have hslice : pySlice (a ++ (jsonFence ++ (b ++ (codeFence ++ c))))
        ((a.length : Int) + 7) ((a.length + 7 + b.length : Nat) : Int) = b := by
      have hT : a ++ (jsonFence ++ (b ++ (codeFence ++ c)))
          = (a ++ jsonFence) ++ (b ++ (codeFence ++ c)) := by
        simp [List.append_assoc]
      have hx : (a ++ jsonFence).length = a.length + 7 := by
        rw [List.length_append]; rfl
      have hmid := pySlice_middle (a ++ jsonFence) b (codeFence ++ c)
      rw [hx] at hmid
      rw [hT, show ((a.length : Int) + 7) = ((a.length + 7 : Nat) : Int) from
        by omega]
      exact hmid
    unfold extractJson
    rw [if_pos h1]
    simp only [hpf1, hpf2, hslice]
  · intro a b c hnojson ha hb
    have h1 : isSubstrL codeFence
        (a ++ (codeFence ++ (b ++ (codeFence ++ c)))) = true :=
      isSubstrL_append_left a (isSubstrL_of_startsWith
        (startsWithL_self_append codeFence (b ++ (codeFence ++ c))))
    have hfo1 : firstOccur codeFence
        (a ++ (codeFence ++ (b ++ (codeFence ++ c)))) = some a.length :=
      firstOccur_split codeFence a (codeFence ++ (b ++ (codeFence ++ c)))
        (by decide) ha (startsWithL_self_append _ _)
    have hpf1 : pyFind (a ++ (codeFence ++ (b ++ (codeFence ++ c)))) codeFence 0
        = (a.length : Int) := pyFind_zero_of_firstOccur hfo1
    have hdrop : (a ++ (codeFence ++ (b ++ (codeFence ++ c)))).drop
        (a.length + 3) = b ++ (codeFence ++ c) := by
      have hT : a ++ (codeFence ++ (b ++ (codeFence ++ c)))
          = (a ++ codeFence) ++ (b ++ (codeFence ++ c)) := by
        simp [List.append_assoc]
      rw [hT]
      exact List.drop_left' (by rw [List.length_append]; rfl)
    have hfo2 : firstOccur codeFence (b ++ (codeFence ++ c)) = some b.length :=
      firstOccur_split codeFence b (codeFence ++ c) (by decide) hb
        (startsWithL_self_append _ _)
    have hst : ((a.length : Int) + 3).toNat = a.length + 3 := by omega
    have hpf2 : pyFind (a ++ (codeFence ++ (b ++ (codeFence ++ c)))) codeFence
        ((a.length : Int) + 3) = ((a.length + 3 + b.length : Nat) : Int) := by
      simp only [pyFind, hst, hdrop, hfo2]
    have hslice : pySlice (a ++ (codeFence ++ (b ++ (codeFence ++ c))))
        ((a.length : Int) + 3) ((a.length + 3 + b.length : Nat) : Int) = b := by
      have hT : a ++ (codeFence ++ (b ++ (codeFence ++ c)))
          = (a ++ codeFence) ++ (b ++ (codeFence ++ c)) := by
        simp [List.append_assoc]
      have hx : (a ++ codeFence).length = a.length + 3 := by
        rw [List.length_append]; rfl
      have hmid := pySlice_middle (a ++ codeFence) b (codeFence ++ c)
      rw [hx] at hmid
      rw [hT, show ((a.length : Int) + 3) = ((a.length + 3 : Nat) : Int) from
        by omega]
      exact hmid
    unfold extractJson
    rw [if_neg (by simp [hnojson]), if_pos h1]
    simp only [hpf1, hpf2, hslice]
  · intro text hno3
    have hnojson : isSubstrL jsonFence text = false := by
      by_contra h
      rw [Bool.not_eq_false] at h
      have : isSubstrL codeFence text = true :=
        isSubstrL_mono_pat (by decide) h
      rw [hno3] at this
      exact Bool.false_ne_true this
    unfold extractJson
    rw [if_neg (by simp [hnojson]), if_neg (by simp [hno3])]
  · intro decode text e h
    simpa [analyzeResponse] using h

/-! ## C7: pydantic validation of the two recommendation schemas -/

theorem exceptIsOk_reqField (fs : List (Str × JValue)) (n : Str)
    (co : JValue → Option α) :
    exceptIsOk (reqField fs n co) = fieldOkReq fs n co := by
  unfold reqField fieldOkReq
  cases jLookup fs n with
  | none => simp [exceptIsOk]
  | some v => cases hcv : co v <;> simp [exceptIsOk, hcv]

theorem exceptIsOk_optField (fs : List (Str × JValue)) (n : Str)
    (co : JValue → Option α) (d : α) :
    exceptIsOk (optField fs n co d) = fieldOkOpt fs n co := by
  unfold optField fieldOkOpt
  cases jLookup fs n with
  | none => simp [exceptIsOk]
  | some v => cases hcv : co v <;> simp [exceptIsOk, hcv]

theorem exceptIsOk_reqConfidence (fs : List (Str × JValue)) :
    exceptIsOk (reqConfidence fs) = confidenceOk fs := by
  unfold reqConfidence confidenceOk reqField
  cases h : jLookup fs "confidence".toList with
  | none => simp [exceptIsOk, Bind.bind, Except.bind]
  | some v =>
    cases hc : coerceInt v with
    | none => simp [hc, exceptIsOk, Bind.bind, Except.bind]
    | some n =>
      by_cases hb : 0 ≤ n ∧ n ≤ 100
      · simp [hc, exceptIsOk, Bind.bind, Except.bind, hb, Pure.pure, Except.pure]
      · simp [hc, exceptIsOk, Bind.bind, Except.bind, hb]

theorem reqConfidence_ok_bounds {fs : List (Str × JValue)} {n : Int}
    (h : reqConfidence fs = .ok n) : 0 ≤ n ∧ n ≤ 100 := by
  unfold reqConfidence at h
  cases hr : reqField fs "confidence".toList coerceInt with
  | error e => rw [hr] at h; simp [Bind.bind, Except.bind] at h
  | ok m =>
    rw [hr] at h
    simp only [Bind.bind, Except.bind] at h
    by_cases hb : 0 ≤ m ∧ m ≤ 100
    · rw [if_pos hb] at h
      simp only [Pure.pure, Except.pure, Except.ok.injEq] at h
      subst h
      exact hb
    · rw [if_neg hb] at h
      simp at h

/-- C7: validation of a parsed model response against the gauge and
classifier schemas succeeds exactly when every required field is present
with a value coercible to its declared type, every present optional field
is coercible, and the coerced `confidence` lies in `[0, 100]`; and every
validated record has an integer `confidence` between 0 and 100. -/
theorem recommendation_validation_characterization :
    (∀ fs, exceptIsOk (validateRevaluation fs) = revaluationAccepted fs)
    ∧ (∀ fs, exceptIsOk (validateClassification fs) = classificationAccepted fs)
    ∧ (∀ fs r, validateRevaluation fs = .ok r →
        0 ≤ r.confidence ∧ r.confidence ≤ 100)
    ∧ (∀ fs r, validateClassification fs = .ok r →
        0 ≤ r.confidence ∧ r.confidence ≤ 100) := by
  refine ⟨?_, ?_, ?_, ?_⟩
  · intro fs
    unfold validateRevaluation revaluationAccepted
    rw [← exceptIsOk_reqField fs "should_reevaluate".toList coerceBool,
      ← exceptIsOk_reqConfidence fs,
      ← exceptIsOk_reqField fs "current_level".toList coerceStr,
      ← exceptIsOk_reqField fs "likely_new_level_range".toList coerceStr,
      ← exceptIsOk_reqField fs "rationale".toList coerceStr,
      ← exceptIsOk_optField fs "key_factors".toList coerceListStr [],
      ← exceptIsOk_optField fs "categories_affected".toList coerceListStr [],
      ← exceptIsOk_reqField fs "risk_assessment".toList coerceStr]
    cases reqField fs "should_reevaluate".toList coerceBool <;>
      cases reqConfidence fs <;>
      cases reqField fs "current_level".toList coerceStr <;>
      cases reqField fs "likely_new_level_range".toList coerceStr <;>
      cases reqField fs "rationale".toList coerceStr <;>
      cases optField fs "key_factors".toList coerceListStr [] <;>
      cases optField fs "categories_affected".toList coerceListStr [] <;>
      cases reqField fs "risk_assessment".toList coerceStr <;>
      simp [Bind.bind, Except.bind, exceptIsOk, Pure.pure, Except.pure]
  · intro fs
    unfold validateClassification classificationAccepted
    rw [← exceptIsOk_reqField fs "position_title".toList coerceStr,
      ← exceptIsOk_reqField fs "recommended_level".toList coerceStr,
      ← exceptIsOk_reqConfidence fs,
      ← exceptIsOk_optField fs "previous_level".toList coerceOptStr none,
      ← exceptIsOk_reqField fs "rationale".toList coerceStr,
      ← exceptIsOk_optField fs "category_analysis".toList coerceDictStrStr [],
      ← exceptIsOk_optField fs "supporting_evidence".toList coerceListStr [],
      ← exceptIsOk_optField fs "alternative_levels".toList coerceListStr [],
      ← exceptIsOk_optField fs "change_context_used".toList coerceBool false,
      ← exceptIsOk_optField fs "comparable_positions".toList coerceListStr []]
    cases reqField fs "position_title".toList coerceStr <;>
      cases reqField fs "recommended_level".toList coerceStr <;>
      cases reqConfidence fs <;>
      cases optField fs "previous_level".toList coerceOptStr none <;>
      cases reqField fs "rationale".toList coerceStr <;>
      cases optField fs "category_analysis".toList coerceDictStrStr [] <;>
      cases optField fs "supporting_evidence".toList coerceListStr [] <;>
      cases optField fs "alternative_levels".toList coerceListStr [] <;>
      cases optField fs "change_context_used".toList coerceBool false <;>
      cases optField fs "comparable_positions".toList coerceListStr [] <;>
      simp [Bind.bind, Except.bind, exceptIsOk, Pure.pure, Except.pure]
  · intro fs r h
    unfold validateRevaluation at h
    cases h1 : reqField fs "should_reevaluate".toList coerceBool with
    | error e0 => rw [h1] at h; simp [Bind.bind, Except.bind] at h
    | ok v0 =>
      rw [h1] at h
      simp only [Bind.bind, Except.bind] at h
      cases h2 : reqConfidence fs with
      | error e1 => rw [h2] at h; simp [Bind.bind, Except.bind] at h
      | ok v1 =>
        rw [h2] at h
        simp only [Bind.bind, Except.bind] at h
        cases h3 : reqField fs "current_level".toList coerceStr with
        | error e2 => rw [h3] at h; simp [Bind.bind, Except.bind] at h
        | ok v2 =>
          rw [h3] at h
          simp only [Bind.bind, Except.bind] at h
          cases h4 : reqField fs "likely_new_level_range".toList coerceStr with
          | error e3 => rw [h4] at h; simp [Bind.bind, Except.bind] at h
          | ok v3 =>
            rw [h4] at h
            simp only [Bind.bind, Except.bind] at h
            cases h5 : reqField fs "rationale".toList coerceStr with
            | error e4 => rw [h5] at h; simp [Bind.bind, Except.bind] at h
            | ok v4 =>
              rw [h5] at h
              simp only [Bind.bind, Except.bind] at h
              cases h6 : optField fs "key_factors".toList coerceListStr [] with
              | error e5 => rw [h6] at h; simp [Bind.bind, Except.bind] at h
              | ok v5 =>
                rw [h6] at h
                simp only [Bind.bind, Except.bind] at h
                cases h7 : optField fs "categories_affected".toList coerceListStr [] with
                | error e6 => rw [h7] at h; simp [Bind.bind, Except.bind] at h
                | ok v6 =>
                  rw [h7] at h
                  simp only [Bind.bind, Except.bind] at h
                  cases h8 : reqField fs "risk_assessment".toList coerceStr with
                  | error e7 => rw [h8] at h; simp [Bind.bind, Except.bind] at h
                  | ok v7 =>
                    rw [h8] at h
                    simp only [Bind.bind, Except.bind] at h
                    simp only [Pure.pure, Except.pure, Except.ok.injEq] at h
                    subst h
                    exact reqConfidence_ok_bounds h2
  · intro fs r h
    unfold validateClassification at h
    cases h1 : reqField fs "position_title".toList coerceStr with
    | error e0 => rw [h1] at h; simp [Bind.bind, Except.bind] at h
    | ok v0 =>
      rw [h1] at h
      simp only [Bind.bind, Except.bind] at h
      cases h2 : reqField fs "recommended_level".toList coerceStr with
      | error e1 => rw [h2] at h; simp [Bind.bind, Except.bind] at h
      | ok v1 =>
        rw [h2] at h
        simp only [Bind.bind, Except.bind] at h
        cases h3 : reqConfidence fs with
        | error e2 => rw [h3] at h; simp [Bind.bind, Except.bind] at h
        | ok v2 =>
          rw [h3] at h
          simp only [Bind.bind, Except.bind] at h
          cases h4 : optField fs "previous_level".toList coerceOptStr none with
          | error e3 => rw [h4] at h; simp [Bind.bind, Except.bind] at h
          | ok v3 =>
            rw [h4] at h
            simp only [Bind.bind, Except.bind] at h
            cases h5 : reqField fs "rationale".toList coerceStr with
            | error e4 => rw [h5] at h; simp [Bind.bind, Except.bind] at h
            | ok v4 =>
              rw [h5] at h
              simp only [Bind.bind, Except.bind] at h
              cases h6 : optField fs "category_analysis".toList coerceDictStrStr [] with
              | error e5 => rw [h6] at h; simp [Bind.bind, Except.bind] at h
              | ok v5 =>
                rw [h6] at h
                simp only [Bind.bind, Except.bind] at h
                cases h7 : optField fs "supporting_evidence".toList coerceListStr [] with
                | error e6 => rw [h7] at h; simp [Bind.bind, Except.bind] at h
                | ok v6 =>
                  rw [h7] at h
                  simp only [Bind.bind, Except.bind] at h
                  cases h8 : optField fs "alternative_levels".toList coerceListStr [] with
                  | error e7 => rw [h8] at h; simp [Bind.bind, Except.bind] at h
                  | ok v7 =>
                    rw [h8] at h
                    simp only [Bind.bind, Except.bind] at h
                    cases h9 : optField fs "change_context_used".toList coerceBool false with
                    | error e8 => rw [h9] at h; simp [Bind.bind, Except.bind] at h
                    | ok v8 =>
                      rw [h9] at h
                      simp only [Bind.bind, Except.bind] at h
                      cases h10 : optField fs "comparable_positions".toList coerceListStr [] with
                      | error e9 => rw [h10] at h; simp [Bind.bind, Except.bind] at h
                      | ok v9 =>
                        rw [h10] at h
                        simp only [Bind.bind, Except.bind] at h
                        simp only [Pure.pure, Except.pure, Except.ok.injEq] at h
                        subst h
                        exact reqConfidence_ok_bounds h3
/-! ## C8: no cross-field check between recommended and previous level -/

/-- C8: whenever the decoded model response passes the field-level schema,
`FirstPassClassifier.classify` returns the resulting record unchanged —
in particular also when `recommended_level` is strictly below
`previous_level`; no code path rejects, corrects or flags the violation of
the prompt's cross-field rule. -/
theorem classifier_returns_low_level_unchanged :
    ∀ (decode : Str → Except Str (List (Str × JValue))) (text : Str)
      (fs : List (Str × JValue)) (r : ClassificationRecommendation)
      (p : Str) (np nr : Nat),
      decode (extractJson text) = .ok fs →
      validateClassification fs = .ok r →
      r.previous_level = some p →
      ecNum p = some np →
      ecNum r.recommended_level = some nr →
      nr < np →
      classifierResultOf decode text = .ok r := by
  intro decode text fs r p np nr hdec hval _ _ _ _
  unfold classifierResultOf analyzeResponse
  rw [hdec]
  simpa [Except.bind] using hval


/-! ## C1: headings preserved by the PDF/DOCX export -/

theorem splitNl_ne_nil : ∀ s : Str, splitNl s ≠ [] := by
  intro s
  induction s with
  | nil => simp [splitNl]
  | cons c cs ih =>
    simp only [splitNl]
    split
    · simp
    · split
      · simp
      · simp

theorem splitNl_append_nl : ∀ a b : Str, splitNl (a ++ '\n' :: b) = splitNl a ++ splitNl b := by
  intro a b
  induction a with
  | nil => simp [splitNl]
  | cons c a' ih =>
    by_cases hc : c = '\n'
    · subst hc
      simp only [List.cons_append, splitNl, List.append_eq, if_true]
      rw [ih]
    · simp only [List.cons_append, splitNl, List.append_eq, if_neg hc]
      obtain ⟨h0, t0, ht⟩ : ∃ h0 t0, splitNl a' = h0 :: t0 := by
        cases hsp : splitNl a' with
        | nil => exact absurd hsp (splitNl_ne_nil a')
        | cons h0 t0 => exact ⟨h0, t0, rfl⟩
      rw [ih, ht]
      simp

theorem splitNl_joinNl : ∀ (ls : List Str) (l : Str),
    splitNl (joinNl (l :: ls)) = (l :: ls).flatMap splitNl := by
  intro ls
  induction ls with
  | nil => intro l; simp [joinNl]
  | cons l2 ls' ih =>
    intro l
    rw [show joinNl (l :: l2 :: ls') = l ++ '\n' :: joinNl (l2 :: ls') from rfl]
    rw [splitNl_append_nl, ih l2]
    simp

theorem splitNl_joinNl_of_ne_nil (ls : List Str) (hne : ls ≠ []) :
    splitNl (joinNl ls) = ls.flatMap splitNl := by
  cases ls with
  | nil => exact absurd rfl hne
  | cons l ls' => exact splitNl_joinNl ls' l

theorem expRun_append (render : Str → β) (st : ExpState) (xs ys : List Str) :
    expRun render st (xs ++ ys)
      = ((expRun render (expRun render st xs).1 ys).1,
         (expRun render st xs).2 ++ (expRun render (expRun render st xs).1 ys).2) := by
  induction xs generalizing st with
  | nil => simp [expRun]
  | cons x xs ih =>
    simp only [List.cons_append, expRun, List.append_eq]
    rw [ih]
    simp [List.append_assoc]

theorem expAdvance_start_mono {st : ExpState} (raw : Str)
    (h : st.startRendering = true) :
    (expAdvance st raw).1.startRendering = true := by
  unfold expAdvance
  simp only [h, Bool.true_or]
  split_ifs <;> first | rfl | exact h

theorem expRun_start_mono (render : Str → β) {st : ExpState} (ls : List Str)
    (h : st.startRendering = true) :
    (expRun render st ls).1.startRendering = true := by
  induction ls generalizing st with
  | nil => simpa [expRun] using h
  | cons l ls ih =>
    simp only [expRun]
    exact ih (expAdvance_start_mono l h)

theorem expAdvance_ji (st : ExpState) :
    expAdvance st "JOB INFORMATION".toList
      = (⟨true, false⟩, some "JOB INFORMATION".toList) := by
  obtain ⟨s, k⟩ := st
  cases s <;> cases k <;> decide

theorem expAdvance_postHeader (b : Bool) (h : Str) (hh : h ∈ postHeaders) :
    expAdvance ⟨true, b⟩ h = (⟨true, false⟩, some h) := by
  simp only [postHeaders, List.mem_cons, List.not_mem_nil, or_false] at hh
  rcases hh with rfl | rfl | rfl | rfl | rfl | rfl | rfl <;> cases b <;> decide

theorem render_ji_mem (render : Str → β) (st : ExpState) (p r : List Str) :
    render "JOB INFORMATION".toList
      ∈ (expRun render st (p ++ "JOB INFORMATION".toList :: r)).2 := by
  rw [expRun_append]
  refine List.mem_append.mpr (Or.inr ?_)
  simp only [expRun, expAdvance_ji]
  simp

theorem render_header_mem (render : Str → β) (st : ExpState) (p q r : List Str)
    (h : Str) (hh : h ∈ postHeaders) :
    render h
      ∈ (expRun render st (p ++ "JOB INFORMATION".toList :: (q ++ h :: r))).2 := by
  rw [expRun_append]
  refine List.mem_append.mpr (Or.inr ?_)
  simp only [expRun, expAdvance_ji]
  refine List.mem_append.mpr (Or.inr ?_)
  rw [expRun_append]
  refine List.mem_append.mpr (Or.inr ?_)
  rcases hst2 : (expRun render ⟨true, false⟩ q).1 with ⟨s2, k2⟩
  have hs2 : s2 = true := by
    have hm := expRun_start_mono render q
      (show (⟨true, false⟩ : ExpState).startRendering = true from rfl)
    rw [hst2] at hm
    exact hm
  subst hs2
  simp only [expRun, expAdvance_postHeader k2 h hh]
  simp

/-- C1 (amended): for every `JobDescription` record, every top-level section
header the formatter emits at or after the `JOB INFORMATION` line (i.e.
JOB INFORMATION, OVERALL PURPOSE, KEY RESPONSIBILITIES, PEOPLE MANAGEMENT,
SCOPE, LICENSES/CERTIFICATIONS, WORKING CONDITIONS) appears, title-cased, as
a top-level heading in both the DOCX and the PDF export of the plain-text
rendering. -/
theorem export_preserves_post_ji_headers :
    ∀ (jd : JobDescription) (h : Str), h ∈ postHeaders →
      DocxBlock.heading1 (pyTitle h) ∈ generate_docx (format_console_output jd)
      ∧ PdfBlock.title (pyHtmlEscape (pyTitle h))
        ∈ generate_pdf (format_console_output jd) := by
  intro jd h hh
  have sji : splitNl "JOB INFORMATION".toList = ["JOB INFORMATION".toList] := rfl
  have spo : splitNl "OVERALL PURPOSE".toList = ["OVERALL PURPOSE".toList] := rfl
  have skr : splitNl "KEY RESPONSIBILITIES".toList
      = ["KEY RESPONSIBILITIES".toList] := rfl
  have spm : splitNl "PEOPLE MANAGEMENT".toList
      = ["PEOPLE MANAGEMENT".toList] := rfl
  have ssc : splitNl "SCOPE".toList = ["SCOPE".toList] := rfl
  have slc : splitNl "LICENSES/CERTIFICATIONS".toList
      = ["LICENSES/CERTIFICATIONS".toList] := rfl
  have swc : splitNl "WORKING CONDITIONS".toList
      = ["WORKING CONDITIONS".toList] := rfl
  have scl : splitNl "CLASSIFICATION JOB INFORMATION".toList
      = ["CLASSIFICATION JOB INFORMATION".toList] := rfl
  have hne : formatLines jd ≠ [] := by
    simp [formatLines, headerSeg]
  have hsplit : splitNl (format_console_output jd)
      = (formatLines jd).flatMap splitNl :=
    splitNl_joinNl_of_ne_nil (formatLines jd) hne
  simp only [postHeaders, List.mem_cons, List.not_mem_nil, or_false] at hh
  rcases hh with rfl | rfl | rfl | rfl | rfl | rfl | rfl
  · -- h = "JOB INFORMATION"
    have hdec : (formatLines jd).flatMap splitNl
        = (FL (headerSeg jd) ++ FL (classifSeg jd))
          ++ "JOB INFORMATION".toList :: (FL (jobInfoBody jd) ++ FL (purposeSeg jd) ++ FL (responsibilitiesSeg jd) ++ FL (peopleSeg jd) ++ FL (scopeSeg jd) ++ FL (licensesSeg jd) ++ FL (workingSeg jd) ++ FL (additionalSeg jd) ++ FL footerSeg) := by
      simp only [formatLines, FL, List.flatMap_append, List.flatMap_cons, headerSeg, classifSeg, jobInfoSeg, purposeSeg, responsibilitiesSeg, peopleSeg, scopeSeg, licensesSeg, workingSeg, sji, spo, skr, spm, ssc, slc, swc, scl, List.append_assoc, List.cons_append, List.singleton_append,
        List.nil_append, List.flatMap_nil]
    refine ⟨?_, ?_⟩
    · have hrd : DocxBlock.heading1 (pyTitle "JOB INFORMATION".toList)
          = docxRender "JOB INFORMATION".toList := by decide
      unfold generate_docx
      rw [hsplit, hdec, hrd]
      exact render_ji_mem docxRender ⟨false, false⟩ _ _
    · have hrp : PdfBlock.title (pyHtmlEscape (pyTitle "JOB INFORMATION".toList))
          = pdfRender "JOB INFORMATION".toList := by decide
      unfold generate_pdf
      rw [hsplit, hdec, hrp]
      exact render_ji_mem pdfRender ⟨false, false⟩ _ _
  · -- h = "OVERALL PURPOSE"
    have hdec : (formatLines jd).flatMap splitNl
        = (FL (headerSeg jd) ++ FL (classifSeg jd))
          ++ "JOB INFORMATION".toList
            :: ((FL (jobInfoBody jd))
              ++ "OVERALL PURPOSE".toList :: (FL (purposeBody jd) ++ FL (responsibilitiesSeg jd) ++ FL (peopleSeg jd) ++ FL (scopeSeg jd) ++ FL (licensesSeg jd) ++ FL (workingSeg jd) ++ FL (additionalSeg jd) ++ FL footerSeg)) := by
      simp only [formatLines, FL, List.flatMap_append, List.flatMap_cons, headerSeg, classifSeg, jobInfoSeg, purposeSeg, responsibilitiesSeg, peopleSeg, scopeSeg, licensesSeg, workingSeg, sji, spo, skr, spm, ssc, slc, swc, scl, List.append_assoc, List.cons_append, List.singleton_append,
        List.nil_append, List.flatMap_nil]
    refine ⟨?_, ?_⟩
    · have hrd : DocxBlock.heading1 (pyTitle "OVERALL PURPOSE".toList)
          = docxRender "OVERALL PURPOSE".toList := by decide
      unfold generate_docx
      rw [hsplit, hdec, hrd]
      exact render_header_mem docxRender ⟨false, false⟩ _ _ _ _ (by decide)
    · have hrp : PdfBlock.title (pyHtmlEscape (pyTitle "OVERALL PURPOSE".toList))
          = pdfRender "OVERALL PURPOSE".toList := by decide
      unfold generate_pdf
      rw [hsplit, hdec, hrp]
      exact render_header_mem pdfRender ⟨false, false⟩ _ _ _ _ (by decide)
  · -- h = "KEY RESPONSIBILITIES"
    have hdec : (formatLines jd).flatMap splitNl
        = (FL (headerSeg jd) ++ FL (classifSeg jd))
          ++ "JOB INFORMATION".toList
            :: ((FL (jobInfoBody jd) ++ FL (purposeSeg jd))
              ++ "KEY RESPONSIBILITIES".toList :: (FL (responsibilitiesBody jd) ++ FL (peopleSeg jd) ++ FL (scopeSeg jd) ++ FL (licensesSeg jd) ++ FL (workingSeg jd) ++ FL (additionalSeg jd) ++ FL footerSeg)) := by
      simp only [formatLines, FL, List.flatMap_append, List.flatMap_cons, headerSeg, classifSeg, jobInfoSeg, purposeSeg, responsibilitiesSeg, peopleSeg, scopeSeg, licensesSeg, workingSeg, sji, spo, skr, spm, ssc, slc, swc, scl, List.append_assoc, List.cons_append, List.singleton_append,
        List.nil_append, List.flatMap_nil]
    refine ⟨?_, ?_⟩
    · have hrd : DocxBlock.heading1 (pyTitle "KEY RESPONSIBILITIES".toList)
          = docxRender "KEY RESPONSIBILITIES".toList := by decide
      unfold generate_docx
      rw [hsplit, hdec, hrd]
      exact render_header_mem docxRender ⟨false, false⟩ _ _ _ _ (by decide)
    · have hrp : PdfBlock.title (pyHtmlEscape (pyTitle "KEY RESPONSIBILITIES".toList))
          = pdfRender "KEY RESPONSIBILITIES".toList := by decide
      unfold generate_pdf
      rw [hsplit, hdec, hrp]
      exact render_header_mem pdfRender ⟨false, false⟩ _ _ _ _ (by decide)
  · -- h = "PEOPLE MANAGEMENT"
    have hdec : (formatLines jd).flatMap splitNl
        = (FL (headerSeg jd) ++ FL (classifSeg jd))
          ++ "JOB INFORMATION".toList
            :: ((FL (jobInfoBody jd) ++ FL (purposeSeg jd) ++ FL (responsibilitiesSeg jd))
              ++ "PEOPLE MANAGEMENT".toList :: (FL (peopleBody jd) ++ FL (scopeSeg jd) ++ FL (licensesSeg jd) ++ FL (workingSeg jd) ++ FL (additionalSeg jd) ++ FL footerSeg)) := by
      simp only [formatLines, FL, List.flatMap_append, List.flatMap_cons, headerSeg, classifSeg, jobInfoSeg, purposeSeg, responsibilitiesSeg, peopleSeg, scopeSeg, licensesSeg, workingSeg, sji, spo, skr, spm, ssc, slc, swc, scl, List.append_assoc, List.cons_append, List.singleton_append,
        List.nil_append, List.flatMap_nil]
    refine ⟨?_, ?_⟩
    · have hrd : DocxBlock.heading1 (pyTitle "PEOPLE MANAGEMENT".toList)
          = docxRender "PEOPLE MANAGEMENT".toList := by decide
      unfold generate_docx
      rw [hsplit, hdec, hrd]
      exact render_header_mem docxRender ⟨false, false⟩ _ _ _ _ (by decide)
    · have hrp : PdfBlock.title (pyHtmlEscape (pyTitle "PEOPLE MANAGEMENT".toList))
          = pdfRender "PEOPLE MANAGEMENT".toList := by decide
      unfold generate_pdf
      rw [hsplit, hdec, hrp]
      exact render_header_mem pdfRender ⟨false, false⟩ _ _ _ _ (by decide)
  · -- h = "SCOPE"
    have hdec : (formatLines jd).flatMap splitNl
        = (FL (headerSeg jd) ++ FL (classifSeg jd))
          ++ "JOB INFORMATION".toList
            :: ((FL (jobInfoBody jd) ++ FL (purposeSeg jd) ++ FL (responsibilitiesSeg jd) ++ FL (peopleSeg jd))
              ++ "SCOPE".toList :: (FL (scopeBody jd) ++ FL (licensesSeg jd) ++ FL (workingSeg jd) ++ FL (additionalSeg jd) ++ FL footerSeg)) := by
      simp only [formatLines, FL, List.flatMap_append, List.flatMap_cons, headerSeg, classifSeg, jobInfoSeg, purposeSeg, responsibilitiesSeg, peopleSeg, scopeSeg, licensesSeg, workingSeg, sji, spo, skr, spm, ssc, slc, swc, scl, List.append_assoc, List.cons_append, List.singleton_append,
        List.nil_append, List.flatMap_nil]
    refine ⟨?_, ?_⟩
    · have hrd : DocxBlock.heading1 (pyTitle "SCOPE".toList)
          = docxRender "SCOPE".toList := by decide
      unfold generate_docx
      rw [hsplit, hdec, hrd]
      exact render_header_mem docxRender ⟨false, false⟩ _ _ _ _ (by decide)
    · have hrp : PdfBlock.title (pyHtmlEscape (pyTitle "SCOPE".toList))
          = pdfRender "SCOPE".toList := by decide
      unfold generate_pdf
      rw [hsplit, hdec, hrp]
      exact render_header_mem pdfRender ⟨false, false⟩ _ _ _ _ (by decide)
  · -- h = "LICENSES/CERTIFICATIONS"
    have hdec : (formatLines jd).flatMap splitNl
        = (FL (headerSeg jd) ++ FL (classifSeg jd))
          ++ "JOB INFORMATION".toList
            :: ((FL (jobInfoBody jd) ++ FL (purposeSeg jd) ++ FL (responsibilitiesSeg jd) ++ FL (peopleSeg jd) ++ FL (scopeSeg jd))
              ++ "LICENSES/CERTIFICATIONS".toList :: (FL (licensesBody jd) ++ FL (workingSeg jd) ++ FL (additionalSeg jd) ++ FL footerSeg)) := by
      simp only [formatLines, FL, List.flatMap_append, List.flatMap_cons, headerSeg, classifSeg, jobInfoSeg, purposeSeg, responsibilitiesSeg, peopleSeg, scopeSeg, licensesSeg, workingSeg, sji, spo, skr, spm, ssc, slc, swc, scl, List.append_assoc, List.cons_append, List.singleton_append,
        List.nil_append, List.flatMap_nil]
    refine ⟨?_, ?_⟩
    · have hrd : DocxBlock.heading1 (pyTitle "LICENSES/CERTIFICATIONS".toList)
          = docxRender "LICENSES/CERTIFICATIONS".toList := by decide
      unfold generate_docx
      rw [hsplit, hdec, hrd]
      exact render_header_mem docxRender ⟨false, false⟩ _ _ _ _ (by decide)
    · have hrp : PdfBlock.title (pyHtmlEscape (pyTitle "LICENSES/CERTIFICATIONS".toList))
          = pdfRender "LICENSES/CERTIFICATIONS".toList := by decide
      unfold generate_pdf
      rw [hsplit, hdec, hrp]
      exact render_header_mem pdfRender ⟨false, false⟩ _ _ _ _ (by decide)
  · -- h = "WORKING CONDITIONS"
    have hdec : (formatLines jd).flatMap splitNl
        = (FL (headerSeg jd) ++ FL (classifSeg jd))
          ++ "JOB INFORMATION".toList
            :: ((FL (jobInfoBody jd) ++ FL (purposeSeg jd) ++ FL (responsibilitiesSeg jd) ++ FL (peopleSeg jd) ++ FL (scopeSeg jd) ++ FL (licensesSeg jd))
              ++ "WORKING CONDITIONS".toList :: (FL (workingBody jd) ++ FL (additionalSeg jd) ++ FL footerSeg)) := by
      simp only [formatLines, FL, List.flatMap_append, List.flatMap_cons, headerSeg, classifSeg, jobInfoSeg, purposeSeg, responsibilitiesSeg, peopleSeg, scopeSeg, licensesSeg, workingSeg, sji, spo, skr, spm, ssc, slc, swc, scl, List.append_assoc, List.cons_append, List.singleton_append,
        List.nil_append, List.flatMap_nil]
    refine ⟨?_, ?_⟩
    · have hrd : DocxBlock.heading1 (pyTitle "WORKING CONDITIONS".toList)
          = docxRender "WORKING CONDITIONS".toList := by decide
      unfold generate_docx
      rw [hsplit, hdec, hrd]
      exact render_header_mem docxRender ⟨false, false⟩ _ _ _ _ (by decide)
    · have hrp : PdfBlock.title (pyHtmlEscape (pyTitle "WORKING CONDITIONS".toList))
          = pdfRender "WORKING CONDITIONS".toList := by decide
      unfold generate_pdf
      rw [hsplit, hdec, hrp]
      exact render_header_mem pdfRender ⟨false, false⟩ _ _ _ _ (by decide)

/-- C1 counterexample to the claim as stated: for the record `jd0`, the line
`CLASSIFICATION JOB INFORMATION` is an all-caps section heading of the
plain-text rendering (it satisfies the exporters' own heading heuristic),
yet neither export contains it — raw or title-cased — as a heading of any
level: the export deliberately skips that section and everything before
`JOB INFORMATION`. -/
theorem export_drops_classification_header :
    "CLASSIFICATION JOB INFORMATION".toList
        ∈ splitNl (format_console_output jd0)
    ∧ isHeadingLine "CLASSIFICATION JOB INFORMATION".toList = true
    ∧ "CLASSIFICATION JOB INFORMATION".toList
        ∉ docxHeadingTexts (generate_docx (format_console_output jd0))
    ∧ pyTitle "CLASSIFICATION JOB INFORMATION".toList
        ∉ docxHeadingTexts (generate_docx (format_console_output jd0))
    ∧ "CLASSIFICATION JOB INFORMATION".toList
        ∉ pdfHeadingTexts (generate_pdf (format_console_output jd0))
    ∧ pyHtmlEscape (pyTitle "CLASSIFICATION JOB INFORMATION".toList)
        ∉ pdfHeadingTexts (generate_pdf (format_console_output jd0)) := by
  decide

/-! ## Witnesses -/

/-- Witness for C1: the SCOPE header of the concrete record `jd0` survives
into both exports, title-cased. -/
theorem export_preserves_post_ji_headers_witness :
    DocxBlock.heading1 (pyTitle "SCOPE".toList)
        ∈ generate_docx (format_console_output jd0)
    ∧ PdfBlock.title (pyHtmlEscape (pyTitle "SCOPE".toList))
        ∈ generate_pdf (format_console_output jd0) :=
  export_preserves_post_ji_headers jd0 "SCOPE".toList (by decide)

/-- Witness for C2: a concrete fenced response is extracted to the stripped
payload between the markers, and a failing decode propagates unchanged. -/
theorem response_json_extraction_witness :
    extractJson ("x ".toList ++ (jsonFence ++ (" 42 ".toList
        ++ (codeFence ++ " tail".toList)))) = pyStrip " 42 ".toList
    ∧ analyzeResponse decodeFail0 "no fences here".toList
        = .error "Expecting value".toList :=
  ⟨response_json_extraction.1 "x ".toList " 42 ".toList " tail".toList
      (by decide) (by decide),
   response_json_extraction.2.2.2 decodeFail0 "no fences here".toList
      "Expecting value".toList rfl⟩

/-- Witness for C4: a bogus format yields 400 with "Invalid format"; a valid
format over an empty output directory yields 404 with "not found". -/
theorem download_invalid_format_and_missing_file_witness :
    (∃ d, download_evaluation [] "j1".toList "bogus".toList
        = .httpError 400 d ∧ isSubstrL "Invalid format".toList d = true)
    ∧ (∃ d, download_evaluation [] "j1".toList "pdf".toList
        = .httpError 404 d ∧ isSubstrL "not found".toList d = true) :=
  ⟨((download_invalid_format_and_missing_file [] "mistral".toList "j1".toList
      "bogus".toList).1 (by decide)).1,
   (download_invalid_format_and_missing_file [] "mistral".toList "j1".toList
      "pdf".toList).2.1 (by decide) (by simp)⟩

/-- Witness for C5: uploading `a.txt` to the classify endpoint is rejected
with 400 before the classifier stage runs. -/
theorem unsupported_extension_rejected_before_pipeline_witness :
    ∃ d, classify_position "J".toList (some "a.txt".toList)
          (.error "E".toList) = (.httpError 400 d, [])
        ∧ isSubstrL "Unsupported file type".toList d = true :=
  (unsupported_extension_rejected_before_pipeline "J".toList "a.txt".toList
    (by decide) (by decide)).1 (.error "E".toList)

/-- Witness for C7: the concrete well-typed gauge payload validates to a
record whose confidence lies in range. -/
theorem recommendation_validation_characterization_witness :
    0 ≤ revRec0.confidence ∧ revRec0.confidence ≤ 100 :=
  recommendation_validation_characterization.2.2.1 gaugeFields0 revRec0 rfl

/-- Witness for C8: a schema-valid response recommending EC-05 against a
previous EC-10 is returned unchanged by the classifier's result path. -/
theorem classifier_returns_low_level_unchanged_witness :
    classifierResultOf decodeCls0 "t".toList = .ok clsRec0 :=
  classifier_returns_low_level_unchanged decodeCls0 "t".toList clsFields0
    clsRec0 "EC-10".toList 10 5 rfl rfl rfl rfl rfl (by omega)

/-- Witness for C9: a filename with a leftmost match at position 0 yields
`EC-10`, and a filename with no match anywhere yields `EC-Unknown`. -/
theorem extract_level_from_filename_characterization_witness :
    extract_level_from_path "EC 10 Policy Analyst.pdf".toList
        = "EC-".toList ++ zfill2 "10".toList
    ∧ extract_level_from_path "notes.pdf".toList = "EC-Unknown".toList :=
  ⟨(extract_level_from_filename_characterization
      "EC 10 Policy Analyst.pdf".toList).1 0 "10".toList
      (by omega) (by decide),
   (extract_level_from_filename_characterization "notes.pdf".toList).2
      (by
        intro i
        rcases Nat.lt_or_ge i 9 with h | h
        · interval_cases i <;> decide
        · rw [List.drop_eq_nil_of_le (le_trans (by decide) h)]
          decide)⟩

/-- Witness for C10: the sanitized form of `a/b:c` is short and its
character `a` is alphanumeric. -/
theorem sanitize_filename_safe_witness :
    (sanitize_filename "a/b:c".toList).length ≤ 100
    ∧ (Char.isAlphanum 'a' = true ∨ 'a' = '-' ∨ 'a' = '_') :=
  ⟨(sanitize_filename_safe "a/b:c".toList).1,
   (sanitize_filename_safe "a/b:c".toList).2 'a' (by decide)⟩

end Scottco
